import Mathlib

/-
Verification development for the Academy-Nuggets paper-downloading and
Markdown-cleaning scripts.  The Python sources are shallowly embedded as
executable Lean functions over `String`/`List Char`; network requests and
external libraries (HTML parsing, difflib similarity) appear as explicit
oracle parameters, while all string processing of the scripts themselves is
translated concretely.  Floating-point threshold constants (0.5, 0.6, 0.75,
0.6 ratio, 0.80) are represented by exact rational/natural arithmetic; at the
document sizes involved the Python float computations agree with these exact
values.
-/

/-! ## Python-style character and string helpers -/

/-- Characters treated as whitespace by Python `str.strip` / regex `\s`
(ASCII whitespace plus the common Unicode spaces that appear in the scripts,
including the ideographic space U+3000). -/
def pyIsSpace (c : Char) : Bool :=
  c = ' ' || c = '\t' || c = '\n' || c = '\r' || c = '\x0b' || c = '\x0c' ||
  c = ' ' || c = '　'

/-- Drop leading characters satisfying `p`. -/
def dropLeading (p : Char → Bool) : List Char → List Char
  | [] => []
  | c :: cs => if p c then dropLeading p cs else c :: cs

/-- Python `str.strip(set)`: remove characters satisfying `p` from both ends. -/
def pyStripChars (p : Char → Bool) (cs : List Char) : List Char :=
  ((dropLeading p ((dropLeading p cs).reverse)).reverse)

/-- Python `str.strip()` on a character list. -/
def pyStrip (cs : List Char) : List Char := pyStripChars pyIsSpace cs

/-- Python `str.strip()` on a `String`. -/
def pyStripStr (s : String) : String := ⟨pyStrip s.data⟩

/-- Python `str.rstrip()` (whitespace only). -/
def pyRstripWs (s : String) : String := ⟨(dropLeading pyIsSpace s.data.reverse).reverse⟩

/-- Python `str.rstrip(set)` for an arbitrary character set. -/
def pyRstripChars (p : Char → Bool) (cs : List Char) : List Char :=
  (dropLeading p cs.reverse).reverse

/-- ASCII lower-casing of a character (what `Char.toLower` does; the only
letters the scripts compare case-insensitively are ASCII). -/
def lowAscii (c : Char) : Char := c.toLower

/-- Is `needle` a prefix of `hay`? (Helper for substring search.) -/
def prefixOfAux : List Char → List Char → Bool
  | [], _ => true
  | _ :: _, [] => false
  | a :: as, b :: bs => a == b && prefixOfAux as bs

/-- Python `needle in hay` substring test on character lists. -/
def containsSeq (needle : List Char) : List Char → Bool
  | [] => prefixOfAux needle []
  | c :: cs => prefixOfAux needle (c :: cs) || containsSeq needle cs

/-- Case-insensitive literal match: consume `lit` (given lower-case) from the
front of `cs`, returning the rest on success. -/
def stripCi : List Char → List Char → Option (List Char)
  | [], rest => some rest
  | _ :: _, [] => none
  | l :: ls, c :: rest => if lowAscii c == l then stripCi ls rest else none

/-- Split at the first occurrence of `c` (Python `split(c, 1)` when it
succeeds); `none` when `c` is absent. -/
def splitOnce (c : Char) : List Char → Option (List Char × List Char)
  | [] => none
  | a :: rest =>
    if a == c then some ([], rest)
    else match splitOnce c rest with
      | some p => some (a :: p.1, p.2)
      | none => none

/-- ASCII digit test (the scripts only meet ASCII digits in DOIs/numbers). -/
def isDigit (c : Char) : Bool := c.isDigit

/-! ## `normalize_doi` (download_papers.py, lines 89-114) -/

/-- Characters allowed in the body of a DOI by the extraction regex
`10\.\d{4,9}/[^\s"'<>\)\]\}]+`: everything except whitespace, the two quote
characters, `<`, `>`, `)`, `]` and the closing brace. -/
def doiBodyChar (c : Char) : Bool :=
  !(pyIsSpace c || c = Char.ofNat 34 || c = Char.ofNat 39 ||
    c = '<' || c = '>' || c = ')' || c = ']' || c = '\x7d')

/-- Python `re.sub(r"^\s*doi\s*:\s*", "", d, flags=re.I)`: try to remove a leading
`doi:` label (with optional surrounding whitespace); `none` when the anchored
pattern does not match, in which case the string is left unchanged. -/
def matchDoiLabel (cs : List Char) : Option (List Char) :=
  match stripCi "doi".data (dropLeading pyIsSpace cs) with
  | none => none
  | some r1 =>
    match dropLeading pyIsSpace r1 with
    | ':' :: r2 => some (dropLeading pyIsSpace r2)
    | _ => none

/-- Python `re.sub(r"^https?://(dx\.)?doi\.org/", "", d, flags=re.I)`: remove a
leading DOI-resolver URL.  The optional pieces (`s?`, `(dx\.)?`) commit
greedily; as in the regex, committing can never wrongly block a match because
the follow-up literals start with different characters. -/
def matchDoiUrl (cs : List Char) : Option (List Char) :=
  match stripCi "http".data cs with
  | none => none
  | some r1 =>
    let r2 := match stripCi "s".data r1 with | some x => x | none => r1
    match stripCi "://".data r2 with
    | none => none
    | some r3 =>
      let r4 := match stripCi "dx.".data r3 with | some x => x | none => r3
      stripCi "doi.org/".data r4

/-- Try to match `10\.\d{4,9}/[^\s"'<>\)\]\}]+` at the head of `cs`,
returning the matched text.  Because the digit run is followed by `/`, only
the maximal digit run (of length 4..9) can match. -/
def matchDoiAt (cs : List Char) : Option (List Char) :=
  match cs with
  | '1' :: '0' :: '.' :: rest =>
    let ds := rest.takeWhile isDigit
    if 4 ≤ ds.length && ds.length ≤ 9 then
      match rest.dropWhile isDigit with
      | '/' :: r3 =>
        let tl := r3.takeWhile doiBodyChar
        if tl.isEmpty then none
        else some ('1' :: '0' :: '.' :: (ds ++ '/' :: tl))
      | _ => none
    else none
  | _ => none

/-- Python `re.search` for the DOI pattern: leftmost match. -/
def searchDoiCore : List Char → Option (List Char)
  | [] => none
  | c :: cs =>
    match matchDoiAt (c :: cs) with
    | some m => some m
    | none => searchDoiCore cs

/-- The quote characters stripped by `strip("'\"")`. -/
def quoteChar (c : Char) : Bool := c = Char.ofNat 39 || c = Char.ofNat 34

/-- The wrapping brackets stripped by `strip("()[]{}<>《》（）【】‘’“”")`. -/
def bracketChar (c : Char) : Bool :=
  c = '(' || c = ')' || c = '[' || c = ']' || c = '\x7b' || c = '\x7d' ||
  c = '<' || c = '>' ||
  c = Char.ofNat 0x300A || c = Char.ofNat 0x300B ||
  c = Char.ofNat 0xFF08 || c = Char.ofNat 0xFF09 ||
  c = Char.ofNat 0x3010 || c = Char.ofNat 0x3011 ||
  c = Char.ofNat 0x2018 || c = Char.ofNat 0x2019 ||
  c = Char.ofNat 0x201C || c = Char.ofNat 0x201D

/-- The trailing punctuation removed by `rstrip(".,;:，。：；、！!？?　")`. -/
def punctChar (c : Char) : Bool :=
  c = '.' || c = ',' || c = ';' || c = ':' ||
  c = Char.ofNat 0xFF0C || c = Char.ofNat 0x3002 ||
  c = Char.ofNat 0xFF1A || c = Char.ofNat 0xFF1B ||
  c = Char.ofNat 0x3001 || c = Char.ofNat 0xFF01 || c = '!' ||
  c = Char.ofNat 0xFF1F || c = '?' || c = '　'

/-- Python `normalize_doi` (download_papers.py lines 89-114): strip, remove the
`doi:` label and resolver-URL wrappers, extract the first DOI-looking span,
strip wrapping quotes/brackets, trailing punctuation, and all whitespace. -/
def normalize_doi (s : String) : String :=
  if s = "" then ""
  else
    let d0 := pyStrip s.data
    let d1 := match matchDoiLabel d0 with | some r => r | none => d0
    let d2 := match matchDoiUrl d1 with | some r => r | none => d1
    let d3 := match searchDoiCore d2 with | some m => m | none => d2
    let d4 := pyStripChars pyIsSpace d3
    let d5 := pyStripChars quoteChar d4
    let d6 := pyStripChars pyIsSpace d5
    let d7 := pyStripChars pyIsSpace d6
    let d8 := pyStripChars bracketChar d7
    let d9 := pyRstripChars punctChar d8
    let d10 := d9.filter (fun c => !pyIsSpace c)
    ⟨d10⟩

/-- Python `is_probably_doi` (download_papers.py lines 117-122):
`re.match(r"^10\.\d{4,9}/\S+", normalize_doi(text))`. -/
def matchStart10 : List Char → Bool
  | '1' :: '0' :: '.' :: rest =>
    let ds := rest.takeWhile isDigit
    (4 ≤ ds.length && ds.length ≤ 9) &&
      (match rest.dropWhile isDigit with
       | '/' :: c :: _ => !pyIsSpace c
       | _ => false)
  | _ => false

def is_probably_doi (s : String) : Bool :=
  if s = "" then false
  else matchStart10 (normalize_doi s).data

/-! ## Claim C10 -/

/-- Claim C10 (counterexample): `normalize_doi` is not idempotent.  A second
application of `normalize_doi` to the output for `"do i:x"` strips a `doi:`
label that only came into existence when the first application removed the
internal whitespace, so the outputs differ. -/
theorem c10_counterexample :
    normalize_doi "do i:x" = "doi:x" ∧ normalize_doi "doi:x" = "x" ∧
    normalize_doi (normalize_doi "do i:x") ≠ normalize_doi "do i:x" := by
  refine ⟨by decide, by decide, by decide⟩

/-- Claim C10 (amended): for every string `s` the output of `normalize_doi`
contains no whitespace characters (the final pass removes every whitespace
character); the idempotence half of the claim is refuted by
`c10_counterexample`. -/
theorem c10_no_whitespace (s : String) :
    ∀ c ∈ (normalize_doi s).data, pyIsSpace c = false := by
  intro c hc
  unfold normalize_doi at hc
  by_cases h : s = ""
  · simp [h] at hc
  · simp only [h, if_false] at hc
    have := List.of_mem_filter hc
    simpa using this

/-- Witness for `c10_no_whitespace` at the concrete input `"a b"`. -/
theorem c10_no_whitespace_w : pyIsSpace 'a' = false :=
  c10_no_whitespace "a b" 'a' (by decide)

/-- Python `str.lower()` (character-wise ASCII lower-casing, which is all the
scripts rely on). -/
def pyLower (s : String) : String := ⟨s.data.map lowAscii⟩

/-! ## Column sniffing (download_papers.py lines 48-59, 125-131, 812-833) -/

def DOI_CANDIDATES : List String := ["DOI", "DOI Number", "Digital Object Identifier"]

def TITLE_CANDIDATES : List String := ["Article Title", "Title", "Paper Title", "Document Title"]

/-- A pandas `DataFrame` as far as column sniffing is concerned: its column
names and its number of rows. -/
structure DataFrame where
  cols : List String
  nrows : Nat

/-- pandas `df.empty`: true when either axis has length 0. -/
def DataFrame.isEmptyDf (df : DataFrame) : Bool := df.cols.isEmpty || df.nrows == 0

/-- The dictionary `{c.lower(): c for c in df.columns}`: for a lower-cased
key, the *last* column with that lower-casing (later entries of a Python dict
comprehension overwrite earlier ones). -/
def lowerToReal (cols : List String) (key : String) : Option String :=
  (cols.filter (fun c => pyLower c == key)).getLast?

/-- Python `pick_column` (lines 125-131): first candidate, in list order, whose
lower-casing is a key of `lower_to_real`; returns the real column name. -/
def pick_column (cols : List String) : List String → Option String
  | [] => none
  | cand :: rest =>
    match lowerToReal cols (pyLower cand) with
    | some real => some real
    | none => pick_column cols rest

/-- Python `a or b` for optional strings (`None` and `""` are falsy). -/
def pyOrStr (a b : Option String) : Option String :=
  match a with
  | some s => if s = "" then b else some s
  | none => b

/-- Python `detect_columns` (lines 812-833): raise on an empty table; index column
is the first column unless some column is named `index` case-insensitively;
DOI/Title columns come from the CLI argument or candidate matching. -/
def detect_columns (df : DataFrame) (doiColArg titleColArg : Option String) :
    Except String (String × Option String × Option String) :=
  if df.isEmptyDf then .error "empty-table"
  else
    let indexCol :=
      match df.cols.find? (fun c => pyLower c == "index") with
      | some c => c
      | none => df.cols.headD ""
    let doiCol := pyOrStr doiColArg (pick_column df.cols DOI_CANDIDATES)
    let titleCol := pyOrStr titleColArg (pick_column df.cols TITLE_CANDIDATES)
    .ok (indexCol, doiCol, titleCol)

/-- If some column matches the key, `lowerToReal` finds one. -/
theorem lowerToReal_isSome (cols : List String) (key : String)
    (h : ∃ col ∈ cols, pyLower col = key) : (lowerToReal cols key).isSome = true := by
  rcases h with ⟨col, hcol, heq⟩
  have hmem : col ∈ cols.filter (fun c => pyLower c == key) := by
    simp [List.mem_filter, hcol, heq]
  unfold lowerToReal
  cases hgl : cols.filter (fun c => pyLower c == key) with
  | nil => rw [hgl] at hmem; exact absurd hmem (List.not_mem_nil _)
  | cons y ys =>
    have : (y :: ys).getLast? = some ((y :: ys).getLast (by simp)) :=
      List.getLast?_eq_getLast_of_ne_nil (by simp)
    simp [this]

/-- Whatever `lowerToReal` returns is a column whose lower-casing is the key. -/
theorem lowerToReal_spec (cols : List String) (key c : String)
    (h : lowerToReal cols key = some c) : c ∈ cols ∧ pyLower c = key := by
  have hx : c ∈ (cols.filter (fun x => pyLower x == key)).getLast? :=
    Option.mem_def.mpr h
  rcases List.mem_getLast?_eq_getLast hx with ⟨hne, rfl⟩
  have hmem := List.getLast_mem hne
  have := List.mem_filter.mp hmem
  exact ⟨this.1, by simpa using this.2⟩

/-- Lemma: `pick_column` returns `none` exactly when no candidate matches any column
case-insensitively. -/
theorem pick_column_none_iff (cols cands : List String) :
    pick_column cols cands = none ↔
      ∀ cand ∈ cands, ∀ col ∈ cols, pyLower col ≠ pyLower cand := by
  induction cands with
  | nil => simp [pick_column]
  | cons cand rest ih =>
    unfold pick_column
    rcases hl : lowerToReal cols (pyLower cand) with _ | real
    · simp only [ih]
      constructor
      · intro hrest c hc
        rcases List.mem_cons.mp hc with rfl | hmem
        · intro col hcol heq
          have := lowerToReal_isSome cols (pyLower c) ⟨col, hcol, heq⟩
          rw [hl] at this
          simp at this
        · exact hrest c hmem
      · intro hall c hc
        exact hall c (List.mem_cons_of_mem _ hc)
    · simp only [reduceCtorEq, false_iff]
      intro hall
      have := lowerToReal_spec cols (pyLower cand) real hl
      exact hall cand (List.mem_cons_self _ _) real this.1 this.2

/-- A successful `pick_column` returns a real column matching some candidate. -/
theorem pick_column_some (cols cands : List String) (c : String)
    (h : pick_column cols cands = some c) :
    c ∈ cols ∧ ∃ cand ∈ cands, pyLower c = pyLower cand := by
  induction cands with
  | nil => simp [pick_column] at h
  | cons cand rest ih =>
    unfold pick_column at h
    rcases hl : lowerToReal cols (pyLower cand) with _ | real
    · rw [hl] at h
      rcases ih h with ⟨hc, ⟨cand2, hmem, heq⟩⟩
      exact ⟨hc, cand2, List.mem_cons_of_mem _ hmem, heq⟩
    · rw [hl] at h
      have h2 : real = c := by injection h
      subst h2
      have := lowerToReal_spec cols (pyLower cand) real hl
      exact ⟨this.1, cand, List.mem_cons_self _ _, this.2⟩

/-- When the head candidate matches some column, it wins (no later candidate
is consulted). -/
theorem pick_column_head_wins (cols : List String) (cand : String) (rest : List String)
    (h : ∃ col ∈ cols, pyLower col = pyLower cand) :
    pick_column cols (cand :: rest) = lowerToReal cols (pyLower cand) := by
  unfold pick_column
  rcases hl : lowerToReal cols (pyLower cand) with _ | real
  · have := lowerToReal_isSome cols (pyLower cand) h
    rw [hl] at this
    simp at this
  · rfl

/-- Claim C6: column sniffing.  For a non-empty DataFrame, `detect_columns`
takes the first column as index unless some column is named `index`
case-insensitively; the DOI/Title columns come from a non-empty CLI argument
when given, otherwise from case-insensitive candidate matching with the first
candidate in list order winning, returning `none` when no candidate matches;
an empty table raises an error. -/
theorem c6_detect_columns (df : DataFrame) (da ta : Option String) :
    (df.isEmptyDf = true → detect_columns df da ta = .error "empty-table") ∧
    (df.isEmptyDf = false →
      ∃ idx d t, detect_columns df da ta = .ok (idx, d, t)
        ∧ ((∀ c ∈ df.cols, pyLower c ≠ "index") → idx = df.cols.headD "")
        ∧ (∀ c, df.cols.find? (fun x => pyLower x == "index") = some c → idx = c)
        ∧ (∀ s, da = some s → s ≠ "" → d = some s)
        ∧ (da = none → d = pick_column df.cols DOI_CANDIDATES)
        ∧ (∀ s, ta = some s → s ≠ "" → t = some s)
        ∧ (ta = none → t = pick_column df.cols TITLE_CANDIDATES)) ∧
    (∀ cols cands, pick_column cols cands = none ↔
        ∀ cand ∈ cands, ∀ col ∈ cols, pyLower col ≠ pyLower cand) ∧
    (∀ cols cands c, pick_column cols cands = some c →
        c ∈ cols ∧ ∃ cand ∈ cands, pyLower c = pyLower cand) ∧
    (∀ cols cand rest, (∃ col ∈ cols, pyLower col = pyLower cand) →
        pick_column cols (cand :: rest) = lowerToReal cols (pyLower cand)) := by
  refine ⟨?_, ?_, pick_column_none_iff, pick_column_some, pick_column_head_wins⟩
  · intro h
    simp [detect_columns, h]
  · intro h
    refine ⟨(match df.cols.find? (fun c => pyLower c == "index") with
             | some c => c | none => df.cols.headD ""),
            pyOrStr da (pick_column df.cols DOI_CANDIDATES),
            pyOrStr ta (pick_column df.cols TITLE_CANDIDATES),
            ?_, ?_, ?_, ?_, ?_, ?_, ?_⟩
    · simp [detect_columns, h]
    · intro hnone
      have : df.cols.find? (fun x => pyLower x == "index") = none := by
        rw [List.find?_eq_none]
        intro x hx
        simpa using hnone x hx
      simp [this]
    · intro c hc
      simp [hc]
    · intro s hs hne
      simp [hs, pyOrStr, hne]
    · intro hda
      simp [hda, pyOrStr]
    · intro s hs hne
      simp [hs, pyOrStr, hne]
    · intro hta
      simp [hta, pyOrStr]

/-- Witness for `c6_detect_columns`: the empty table raises, and on a
concrete table the DOI candidate list resolves `doi` case-insensitively. -/
theorem c6_detect_columns_w :
    detect_columns ⟨[], 0⟩ none none = .error "empty-table" ∧
    detect_columns ⟨["Idx", "doi"], 2⟩ none none = .ok ("Idx", some "doi", none) := by
  constructor
  · exact (c6_detect_columns ⟨[], 0⟩ none none).1 (by decide)
  · rcases (c6_detect_columns ⟨["Idx", "doi"], 2⟩ none none).2.1 (by decide)
      with ⟨idx, d, t, hok, h1, _, _, h4, _, h6⟩
    have hidx : idx = "Idx" := by
      have := h1 (by decide)
      simpa using this
    have hd : d = some "doi" := by rw [h4 rfl]; decide
    have ht : t = none := by rw [h6 rfl]; decide
    rw [hok, hidx, hd, ht]

/-! ## Title search (download_papers.py lines 724-751)

`similar` lower-cases and strips both strings before handing them to
`difflib.SequenceMatcher(...).ratio()`; the `SequenceMatcher` core is an
external-library computation and is abstracted as an oracle `sim` returning
an exact rational in place of the float ratio. -/

/-- A Crossref work item as consumed by `crossref_find_doi_by_title`: its
title list and optional DOI (`""` models a present-but-empty DOI field). -/
structure CrossrefItem where
  titles : List String
  doi : Option String

/-- Python `similar` (lines 724-725) composed with the abstracted ratio oracle. -/
def similar0 (sim : String → String → ℚ) (a b : String) : ℚ :=
  sim (pyStripStr (pyLower a)) (pyStripStr (pyLower b))

/-- One step of the best-result fold (lines 741-746): keep the incumbent on
ties, replace it on a strictly greater score. -/
def bestStep (sim : String → String → ℚ) (title : String)
    (best : ℚ × Option String) (it : CrossrefItem) : ℚ × Option String :=
  if best.1 < similar0 sim title (it.titles.headD "") then
    (similar0 sim title (it.titles.headD ""), it.doi)
  else best

/-- The result-selection step of `crossref_find_doi_by_title` (lines
740-749): fold for the best-scoring result and return its DOI only when the
best score is at least 0.80 and the DOI is truthy. -/
def crossrefPick (sim : String → String → ℚ) (title : String)
    (items : List CrossrefItem) : Option String :=
  let best := items.foldl (bestStep sim title) (0, none)
  if 4/5 ≤ best.1 then
    match best.2 with
    | some d => if d = "" then none else some d
    | none => none
  else none

/-- Python `crossref_find_doi_by_title` (lines 728-751): query Crossref with
`rows=3`; `fetch title 3 = none` models an empty/failed response (non-200 or
JSON parse failure). -/
def crossref_find_doi_by_title (sim : String → String → ℚ)
    (fetch : String → Nat → Option (List CrossrefItem)) (title : String) :
    Option String :=
  if title = "" then none
  else
    match fetch title 3 with
    | none => none
    | some items => crossrefPick sim title items

/-- The fold's score component bounds every item's score and the initial
accumulator. -/
theorem bestStep_fold_ge (sim : String → String → ℚ) (title : String)
    (items : List CrossrefItem) (acc : ℚ × Option String) :
    acc.1 ≤ (items.foldl (bestStep sim title) acc).1 ∧
    ∀ it ∈ items, similar0 sim title (it.titles.headD "") ≤
      (items.foldl (bestStep sim title) acc).1 := by
  induction items generalizing acc with
  | nil => simp
  | cons it rest ih =>
    simp only [List.foldl_cons]
    have hstep : acc.1 ≤ (bestStep sim title acc it).1 := by
      unfold bestStep
      by_cases hc : acc.1 < similar0 sim title (it.titles.headD "")
      · rw [if_pos hc]
        exact le_of_lt hc
      · rw [if_neg hc]
    have hit : similar0 sim title (it.titles.headD "") ≤ (bestStep sim title acc it).1 := by
      unfold bestStep
      by_cases hc : acc.1 < similar0 sim title (it.titles.headD "")
      · rw [if_pos hc]
      · rw [if_neg hc]
        exact le_of_not_lt hc
    rcases ih (bestStep sim title acc it) with ⟨h1, h2⟩
    refine ⟨le_trans hstep h1, ?_⟩
    intro x hx
    rcases List.mem_cons.mp hx with rfl | hmem
    · exact le_trans hit h1
    · exact h2 x hmem

/-- The fold result is the initial accumulator or comes from some item. -/
theorem bestStep_fold_src (sim : String → String → ℚ) (title : String)
    (items : List CrossrefItem) (acc : ℚ × Option String) :
    items.foldl (bestStep sim title) acc = acc ∨
    ∃ it ∈ items, items.foldl (bestStep sim title) acc =
      (similar0 sim title (it.titles.headD ""), it.doi) := by
  induction items generalizing acc with
  | nil => simp
  | cons it rest ih =>
    simp only [List.foldl_cons]
    rcases ih (bestStep sim title acc it) with h | ⟨it2, hmem, heq⟩
    · rw [h]
      unfold bestStep
      by_cases hc : acc.1 < similar0 sim title (it.titles.headD "")
      · rw [if_pos hc]
        exact Or.inr ⟨it, List.mem_cons_self _ _, rfl⟩
      · rw [if_neg hc]
        exact Or.inl rfl
    · exact Or.inr ⟨it2, List.mem_cons_of_mem _ hmem, heq⟩

/-- Claim C7: `crossref_find_doi_by_title` returns a DOI only when the best
similarity among the fetched results (requested with `rows=3`) is at least
0.80 and that best result carries a non-empty DOI; an empty title, a failed
fetch (non-200 / parse failure), or an all-lower-than-0.80 result set yields
`none`. -/
theorem c7_crossref_find_doi (sim : String → String → ℚ)
    (fetch : String → Nat → Option (List CrossrefItem)) (title : String) :
    (title = "" → crossref_find_doi_by_title sim fetch title = none) ∧
    (fetch title 3 = none → crossref_find_doi_by_title sim fetch title = none) ∧
    (∀ d, crossref_find_doi_by_title sim fetch title = some d →
      d ≠ "" ∧ ∃ items, fetch title 3 = some items ∧
        ∃ it ∈ items, it.doi = some d ∧
          4/5 ≤ similar0 sim title (it.titles.headD "") ∧
          ∀ it2 ∈ items, similar0 sim title (it2.titles.headD "") ≤
            similar0 sim title (it.titles.headD "")) ∧
    (∀ items, fetch title 3 = some items →
      (∀ it ∈ items, similar0 sim title (it.titles.headD "") < 4/5) →
      crossref_find_doi_by_title sim fetch title = none) := by
  have hkey : ∀ items, title ≠ "" → fetch title 3 = some items →
      crossref_find_doi_by_title sim fetch title = crossrefPick sim title items := by
    intro items ht hf
    unfold crossref_find_doi_by_title
    rw [if_neg ht, hf]
  refine ⟨?_, ?_, ?_, ?_⟩
  · intro h
    simp [crossref_find_doi_by_title, h]
  · intro h
    unfold crossref_find_doi_by_title
    split
    · rfl
    · rw [h]
  · intro d h
    by_cases ht : title = ""
    · rw [(by simp [crossref_find_doi_by_title, ht] :
        crossref_find_doi_by_title sim fetch title = none)] at h
      exact absurd h (by simp)
    · rcases hf : fetch title 3 with _ | items
      · rw [(by unfold crossref_find_doi_by_title; rw [if_neg ht, hf] :
          crossref_find_doi_by_title sim fetch title = none)] at h
        exact absurd h (by simp)
      · rw [hkey items ht hf] at h
        unfold crossrefPick at h
        set best := items.foldl (bestStep sim title) (0, none) with hbest
        by_cases hs : 4/5 ≤ best.1
        · rw [if_pos hs] at h
          rcases hd2 : best.2 with _ | d2
          · rw [hd2] at h
            exact absurd (h : (none : Option String) = some d) (by simp)
          · rw [hd2] at h
            have h2 : (if d2 = "" then (none : Option String) else some d2) = some d := h
            by_cases hde : d2 = ""
            · rw [if_pos hde] at h2; exact absurd h2 (by simp)
            · rw [if_neg hde] at h2
              have hdd : d2 = d := by injection h2
              subst hdd
              refine ⟨hde, items, rfl, ?_⟩
              rcases bestStep_fold_src sim title items (0, none) with hid | ⟨it, hmem, heq⟩
              · rw [← hbest] at hid
                rw [hid] at hd2; simp at hd2
              · rw [← hbest] at heq
                refine ⟨it, hmem, ?_, ?_, ?_⟩
                · rw [heq] at hd2; exact hd2
                · have hb1 : best.1 = similar0 sim title (it.titles.headD "") := by
                    rw [heq]
                  rw [hb1] at hs; exact hs
                · intro it2 hmem2
                  have hle := (bestStep_fold_ge sim title items (0, none)).2 it2 hmem2
                  rw [← hbest] at hle
                  have hb1 : best.1 = similar0 sim title (it.titles.headD "") := by
                    rw [heq]
                  rw [← hb1]
                  exact hle
        · rw [if_neg hs] at h
          exact absurd h (by simp)
  · intro items hf hlow
    by_cases ht : title = ""
    · simp [crossref_find_doi_by_title, ht]
    · rw [hkey items ht hf]
      unfold crossrefPick
      have hnot : ¬ (4/5 ≤ (items.foldl (bestStep sim title) (0, none)).1) := by
        rcases bestStep_fold_src sim title items (0, none) with hid | ⟨it, hmem, heq⟩
        · rw [hid]
          norm_num
        · rw [heq]
          exact not_le.mpr (hlow it hmem)
      rw [if_neg hnot]

/-- Witness for `c7_crossref_find_doi`: an empty title yields `none`, and a
result set whose scores all fall below 0.80 yields `none`. -/
theorem c7_crossref_find_doi_w :
    crossref_find_doi_by_title (fun _ _ => 1) (fun _ _ => some []) "" = none ∧
    crossref_find_doi_by_title (fun _ _ => 0)
      (fun _ _ => some [⟨["T"], some "10.1/x"⟩]) "T" = none := by
  constructor
  · exact (c7_crossref_find_doi (fun _ _ => 1) (fun _ _ => some []) "").1 rfl
  · exact (c7_crossref_find_doi (fun _ _ => 0) (fun _ _ => some [⟨["T"], some "10.1/x"⟩]) "T").2.2.2
      [⟨["T"], some "10.1/x"⟩] rfl (by intro it hmem; norm_num [similar0])

/-! ## `stream_download` (download_papers.py lines 754-809) -/

def MAX_CONTENT_MB : Nat := 200

/-- An HTTP response as `stream_download` consumes it: status code,
Content-Type header, and the stream of chunks from `iter_content` (byte
strings, empty chunks possible). -/
structure HttpStream where
  status : Nat
  ctype : String
  chunks : List String

/-- The outcome of `stream_download`: the returned `(ok, note)` pair and the
final content of the output file (`none` = the file was neither created nor
modified; `some c` = the file was opened for writing and now holds `c`). -/
structure DlResult where
  ok : Bool
  note : String
  file : Option String
deriving DecidableEq

/-- The pre-read loop (lines 774-777): first truthy chunk and the chunks the
iterator still holds after it. -/
def firstChunk : List String → Option (String × List String)
  | [] => none
  | c :: cs => if c = "" then firstChunk cs else some (c, cs)

/-- Python `looks_like_pdf` (lines 781-783): the PDF magic within the first 1024
bytes of the buffer. -/
def looks_like_pdf (buf : String) : Bool :=
  containsSeq "%PDF-".data (buf.data.take 1024)

/-- The write loop over the remaining chunks (lines 797-803): the size check
runs before each subsequent chunk is written, then the final size check of
lines 804-807. -/
def writeLoop (maxBytes : Nat) : List String → Nat → String → DlResult
  | [], _, written =>
    if 1024 < written.length then ⟨true, "downloaded", some written⟩
    else ⟨false, "empty-file", some written⟩
  | c :: cs, total, written =>
    if c = "" then writeLoop maxBytes cs total written
    else if maxBytes < total + c.length then ⟨false, "too-large", some written⟩
    else writeLoop maxBytes cs (total + c.length) (written ++ c)

/-- The body of `stream_download` once a non-empty first chunk has been read
(lines 785-807): PDF detection, then the write loop; the first chunk is
written before its size check. -/
def streamBody (ctype first : String) (rest : List String) : DlResult :=
  if !(containsSeq "application/pdf".data (pyLower ctype).data || looks_like_pdf first) then
    ⟨false, "not-pdf", none⟩
  else if MAX_CONTENT_MB * 1024 * 1024 < first.length then
    ⟨false, "too-large", some first⟩
  else writeLoop (MAX_CONTENT_MB * 1024 * 1024) rest first.length first

/-- Python `stream_download` (download_papers.py lines 754-809).  The output file is
opened only after the status, first-chunk and PDF checks have passed. -/
def stream_download (r : HttpStream) : DlResult :=
  if 400 ≤ r.status then ⟨false, "http-" ++ toString r.status, none⟩
  else
    match firstChunk r.chunks with
    | none => ⟨false, "empty-file", none⟩
    | some (first, rest) => streamBody r.ctype first rest

/-- The detection predicate of the claim: status below 400, a non-empty first
chunk, and a PDF Content-Type or PDF magic in the first 1024 bytes. -/
def pdfDetect (r : HttpStream) : Bool :=
  decide (r.status < 400) &&
    (match firstChunk r.chunks with
     | none => false
     | some (first, _) =>
       containsSeq "application/pdf".data (pyLower r.ctype).data || looks_like_pdf first)

/-- Claim C9 (counterexample): a 404 response fails the detection check, yet
`stream_download` returns the note `"http-404"`, which is neither
`"not-pdf"` nor `"empty-file"` as the claim states. -/
theorem c9_counterexample :
    pdfDetect ⟨404, "", []⟩ = false ∧
    stream_download ⟨404, "", []⟩ = ⟨false, "http-404", none⟩ ∧
    "http-404" ≠ "not-pdf" ∧ "http-404" ≠ "empty-file" := by
  refine ⟨by decide, by decide, by decide, by decide⟩

/-- Lemma: `writeLoop` invariants: success requires more than 1024 bytes saved and a
total within the limit. -/
theorem writeLoop_spec (maxBytes : Nat) (cs : List String) (total : Nat) (written : String)
    (hinv : total = written.length) (hle : total ≤ maxBytes) :
    (writeLoop maxBytes cs total written).ok = true →
      ∃ content, (writeLoop maxBytes cs total written).file = some content ∧
        1024 < content.length ∧ content.length ≤ maxBytes ∧
        (writeLoop maxBytes cs total written).note = "downloaded" := by
  induction cs generalizing total written with
  | nil =>
    intro hok
    unfold writeLoop at hok ⊢
    by_cases h : 1024 < written.length
    · rw [if_pos h] at hok ⊢
      exact ⟨written, rfl, h, by rw [← hinv]; exact hle, rfl⟩
    · rw [if_neg h] at hok
      exact absurd hok (by simp)
  | cons c rest ih =>
    intro hok
    unfold writeLoop at hok ⊢
    by_cases hc : c = ""
    · rw [if_pos hc] at hok ⊢
      exact ih total written hinv hle hok
    · rw [if_neg hc] at hok ⊢
      by_cases hbig : maxBytes < total + c.length
      · rw [if_pos hbig] at hok
        exact absurd hok (by simp)
      · rw [if_neg hbig] at hok ⊢
        exact ih (total + c.length) (written ++ c)
          (by simp [hinv]) (le_of_not_lt hbig) hok

/-- Claim C9 (amended): when the detection check fails, the output file is
neither created nor modified and the note is `"http-<status>"`, `"not-pdf"`
or `"empty-file"` (the claim listed only the latter two); `ok = true` is
returned only when the saved file holds strictly more than 1024 bytes and at
most `MAX_CONTENT_MB` megabytes were read. -/
theorem c9_stream_download (r : HttpStream) :
    (pdfDetect r = false →
      (stream_download r).file = none ∧ (stream_download r).ok = false ∧
      ((stream_download r).note = "http-" ++ toString r.status ∨
       (stream_download r).note = "empty-file" ∨
       (stream_download r).note = "not-pdf")) ∧
    ((stream_download r).ok = true →
      ∃ content, (stream_download r).file = some content ∧
        1024 < content.length ∧
        content.length ≤ MAX_CONTENT_MB * 1024 * 1024 ∧
        (stream_download r).note = "downloaded") := by
  constructor
  · intro hdet
    unfold pdfDetect at hdet
    by_cases hst : 400 ≤ r.status
    · have heq : stream_download r = ⟨false, "http-" ++ toString r.status, none⟩ := by
        unfold stream_download
        rw [if_pos hst]
      rw [heq]
      exact ⟨rfl, rfl, Or.inl rfl⟩
    · have hlt : r.status < 400 := lt_of_not_le hst
      rcases hfc : firstChunk r.chunks with _ | ⟨first, rest⟩
      · have heq : stream_download r = ⟨false, "empty-file", none⟩ := by
          unfold stream_download
          rw [if_neg hst, hfc]
        rw [heq]
        exact ⟨rfl, rfl, Or.inr (Or.inl rfl)⟩
      · have heq : stream_download r = streamBody r.ctype first rest := by
          unfold stream_download
          rw [if_neg hst, hfc]
        rw [hfc] at hdet
        have hx : (containsSeq "application/pdf".data (pyLower r.ctype).data ||
            looks_like_pdf first) = false := by
          simpa [hlt] using hdet
        have heq2 : streamBody r.ctype first rest = ⟨false, "not-pdf", none⟩ := by
          unfold streamBody
          rw [if_pos (by simp [hx])]
        rw [heq, heq2]
        exact ⟨rfl, rfl, Or.inr (Or.inr rfl)⟩
  · intro hok
    by_cases hst : 400 ≤ r.status
    · have heq : stream_download r = ⟨false, "http-" ++ toString r.status, none⟩ := by
        unfold stream_download
        rw [if_pos hst]
      rw [heq] at hok
      exact absurd hok (by simp)
    · rcases hfc : firstChunk r.chunks with _ | ⟨first, rest⟩
      · have heq : stream_download r = ⟨false, "empty-file", none⟩ := by
          unfold stream_download
          rw [if_neg hst, hfc]
        rw [heq] at hok
        exact absurd hok (by simp)
      · have heq : stream_download r = streamBody r.ctype first rest := by
          unfold stream_download
          rw [if_neg hst, hfc]
        rw [heq] at hok ⊢
        unfold streamBody at hok ⊢
        cases hb : (containsSeq "application/pdf".data (pyLower r.ctype).data ||
            looks_like_pdf first) with
        | false =>
          rw [if_pos (by simp [hb])] at hok
          exact absurd hok (by simp)
        | true =>
          rw [if_neg (by simp [hb])] at hok ⊢
          by_cases hbig : MAX_CONTENT_MB * 1024 * 1024 < first.length
          · rw [if_pos hbig] at hok
            exact absurd hok (by simp)
          · rw [if_neg hbig] at hok ⊢
            exact writeLoop_spec _ rest first.length first rfl (le_of_not_lt hbig) hok

/-- Witness for `c9_stream_download`: a 500 response leaves the file
untouched, and a 2000-byte PDF stream is saved with note `"downloaded"`. -/
theorem c9_stream_download_w :
    (stream_download ⟨500, "", []⟩).file = none ∧
    (stream_download ⟨200, "application/pdf", [String.mk (List.replicate 2000 'a')]⟩).note
      = "downloaded" := by
  constructor
  · exact ((c9_stream_download ⟨500, "", []⟩).1 (by decide)).1
  · have hne : String.mk (List.replicate 2000 'a') ≠ "" := by
      intro h
      have h2 : List.replicate 2000 'a' = ([] : List Char) := congrArg String.data h
      rw [List.replicate_eq_nil_iff] at h2
      norm_num at h2
    have hlen : (String.mk (List.replicate 2000 'a')).length = 2000 :=
      List.length_replicate 2000 'a' 
    have hfc : firstChunk [String.mk (List.replicate 2000 'a')] =
        some (String.mk (List.replicate 2000 'a'), []) := by
      unfold firstChunk
      rw [if_neg hne]
    have h1 : stream_download ⟨200, "application/pdf", [String.mk (List.replicate 2000 'a')]⟩
        = streamBody "application/pdf" (String.mk (List.replicate 2000 'a')) [] := by
      unfold stream_download
      rw [if_neg (by decide), hfc]
    have hok : (stream_download
        ⟨200, "application/pdf", [String.mk (List.replicate 2000 'a')]⟩).ok = true := by
      rw [h1]
      unfold streamBody
      rw [if_neg (by decide), if_neg (by rw [hlen]; decide)]
      unfold writeLoop
      rw [hlen, if_pos (by decide)]
    rcases (c9_stream_download
        ⟨200, "application/pdf", [String.mk (List.replicate 2000 'a')]⟩).2 hok
      with ⟨c, hfile, hlt, hle2, hnote⟩
    exact hnote

/-! ## Sci-Hub downloader (3-sci-hub-download.py lines 19-76) -/

/-- The mirror list, in its listed order. -/
def scihub_mirrors : List String :=
  ["https://www.sci-hub.ren/", "https://sci-hub.se/", "https://sci-hub.ru/",
   "https://sci-hub.st/"]

/-- A response to the landing-page request `GET mirror+doi`: HTTP status and
the iframe/embed `src` attribute found by BeautifulSoup (`none` covers a
missing frame, a missing attribute, or an exception). -/
structure PageResp where
  status : Nat
  src : Option String

/-- A response to the PDF request: status and body. -/
structure FileResp where
  status : Nat
  content : String

/-- The network as `download_paper` sees it: landing-page and file responses
keyed by the retry round and the request URL (`none` = a raised exception,
e.g. a timeout). -/
structure ScihubNet where
  page : Nat → String → Option PageResp
  fetchFile : Nat → String → Option FileResp

/-- Python `if 'http' not in download_url: download_url = 'https:' + download_url`
(lines 50-51). -/
def fixUrl (u : String) : String :=
  if containsSeq "http".data u.data then u else "https:" ++ u

/-- One attempt of the inner loop body (lines 38-66): returns the saved PDF
content when the landing page returns 200 with a frame `src` and the PDF
request returns 200 with non-empty content. -/
def tryMirror (net : ScihubNet) (doi : String) (r : Nat) (mirror : String) :
    Option String :=
  match net.page r (mirror ++ doi) with
  | none => none
  | some p =>
    if p.status == 200 then
      match p.src with
      | some u =>
        match net.fetchFile r (fixUrl u) with
        | some d => if d.status == 200 && d.content != "" then some d.content else none
        | none => none
      | none => none
    else none

/-- The inner `for mirror in scihub_mirrors` loop of round `r`. -/
def roundLoop (net : ScihubNet) (doi : String) (r : Nat) : List String → Option String
  | [] => none
  | mirror :: rest =>
    match tryMirror net doi r mirror with
    | some c => some c
    | none => roundLoop net doi r rest

/-- The outer `for _ in range(retries)` loop, starting at round `r` with `k`
rounds to go. -/
def roundsFrom (net : ScihubNet) (doi : String) : Nat → Nat → Option String
  | _, 0 => none
  | r, k + 1 =>
    match roundLoop net doi r scihub_mirrors with
    | some c => some c
    | none => roundsFrom net doi (r + 1) k

/-- Python `download_paper` with the default `retries=3` (lines 34-70): the saved
file (named `<index>.pdf`) on success, and the error-log lines appended by
`log_error` (lines 73-76) on total failure. -/
def download_paper (net : ScihubNet) (doi index : String) :
    Option (String × String) × List String :=
  match roundsFrom net doi 0 3 with
  | some c => (some (index ++ ".pdf", c), [])
  | none => (none, [index ++ ": " ++ doi ++ "\n"])

/-- Lemma: `roundLoop` fails when every mirror of the round fails. -/
theorem roundLoop_none (net : ScihubNet) (doi : String) (r : Nat) (ms : List String)
    (h : ∀ m ∈ ms, tryMirror net doi r m = none) :
    roundLoop net doi r ms = none := by
  induction ms with
  | nil => rfl
  | cons m rest ih =>
    unfold roundLoop
    rw [h m (List.mem_cons_self _ _)]
    exact ih (fun x hx => h x (List.mem_cons_of_mem _ hx))

/-- Lemma: `roundLoop` returns the first mirror's result when earlier mirrors fail. -/
theorem roundLoop_first (net : ScihubNet) (doi : String) (r : Nat) (ms : List String)
    (i : Nat) (c : String) (hi : i < ms.length)
    (hsucc : tryMirror net doi r (ms.getD i "") = some c)
    (hprev : ∀ j < i, tryMirror net doi r (ms.getD j "") = none) :
    roundLoop net doi r ms = some c := by
  induction ms generalizing i with
  | nil => simp at hi
  | cons m rest ih =>
    unfold roundLoop
    cases i with
    | zero =>
      simp only [List.getD] at hsucc
      simp at hsucc
      rw [hsucc]
    | succ i2 =>
      have hm : tryMirror net doi r m = none := by
        have := hprev 0 (Nat.succ_pos _)
        simpa [List.getD] using this
      rw [hm]
      exact ih i2 (by simpa using hi) (by simpa [List.getD] using hsucc)
        (fun j hj => by
          have := hprev (j + 1) (by omega)
          simpa [List.getD] using this)

/-- Lemma: `roundsFrom` fails when all attempts in rounds `[r, r+k)` fail. -/
theorem roundsFrom_none (net : ScihubNet) (doi : String) (r k : Nat)
    (h : ∀ r2, r ≤ r2 → r2 < r + k →
      ∀ m ∈ scihub_mirrors, tryMirror net doi r2 m = none) :
    roundsFrom net doi r k = none := by
  induction k generalizing r with
  | zero => rfl
  | succ k2 ih =>
    unfold roundsFrom
    rw [roundLoop_none net doi r scihub_mirrors (h r (le_refl r) (by omega))]
    exact ih (r + 1) (fun r2 h1 h2 => h r2 (by omega) (by omega))

/-- Lemma: `roundsFrom` returns the first success in round-major order. -/
theorem roundsFrom_first (net : ScihubNet) (doi : String) (r k rs m : Nat) (c : String)
    (hr1 : r ≤ rs) (hr2 : rs < r + k) (hm : m < scihub_mirrors.length)
    (hsucc : tryMirror net doi rs (scihub_mirrors.getD m "") = some c)
    (hprev : ∀ r2 m2, m2 < scihub_mirrors.length →
      (r ≤ r2 ∧ r2 < rs) ∨ (r2 = rs ∧ m2 < m) →
      tryMirror net doi r2 (scihub_mirrors.getD m2 "") = none) :
    roundsFrom net doi r k = some c := by
  induction k generalizing r with
  | zero => omega
  | succ k2 ih =>
    unfold roundsFrom
    by_cases heq : r = rs
    · subst heq
      rw [roundLoop_first net doi r scihub_mirrors m c hm hsucc
        (fun j hj => hprev r j (by omega) (Or.inr ⟨rfl, hj⟩))]
    · have hfail : roundLoop net doi r scihub_mirrors = none := by
        apply roundLoop_none
        intro mir hmir
        rcases List.mem_iff_getElem.mp hmir with ⟨j, hjlt, hjeq⟩
        have : scihub_mirrors.getD j "" = mir := by
          rw [List.getD_eq_getElem?_getD]
          rw [List.getElem?_eq_getElem hjlt]
          simpa using hjeq
        rw [← this]
        exact hprev r j hjlt (Or.inl ⟨le_refl r, by omega⟩)
      rw [hfail]
      show roundsFrom net doi (r + 1) k2 = some c
      exact ih (r + 1) (by omega) (by omega) (fun r2 m2 hm2 hcase => by
        rcases hcase with ⟨h1, h2⟩ | ⟨h1, h2⟩
        · exact hprev r2 m2 hm2 (Or.inl ⟨by omega, h2⟩)
        · exact hprev r2 m2 hm2 (Or.inr ⟨h1, h2⟩))

/-- Claim C5: `download_paper` tries the four mirrors in listed order for up
to three full rounds, returns the first saved PDF (second request returning
HTTP 200 with non-empty content), and appends the line `"index: doi"` to the
error log exactly when every attempt fails. -/
theorem c5_download_paper (net : ScihubNet) (doi index : String) :
    (∀ c rs m, rs < 3 → m < scihub_mirrors.length →
      tryMirror net doi rs (scihub_mirrors.getD m "") = some c →
      (∀ r2 m2, m2 < scihub_mirrors.length →
        (r2 < rs ∨ (r2 = rs ∧ m2 < m)) →
        tryMirror net doi r2 (scihub_mirrors.getD m2 "") = none) →
      download_paper net doi index = (some (index ++ ".pdf", c), [])) ∧
    ((∀ rs m, rs < 3 → m < scihub_mirrors.length →
        tryMirror net doi rs (scihub_mirrors.getD m "") = none) →
      download_paper net doi index = (none, [index ++ ": " ++ doi ++ "\n"])) := by
  constructor
  · intro c rs m hrs hm hsucc hprev
    unfold download_paper
    rw [roundsFrom_first net doi 0 3 rs m c (Nat.zero_le _) (by omega) hm hsucc
      (fun r2 m2 hm2 hcase => hprev r2 m2 hm2 (by omega))]
  · intro hall
    unfold download_paper
    rw [roundsFrom_none net doi 0 3 (fun r2 h1 h2 mir hmir => by
      rcases List.mem_iff_getElem.mp hmir with ⟨j, hjlt, hjeq⟩
      have hg : scihub_mirrors.getD j "" = mir := by
        rw [List.getD_eq_getElem?_getD]
        rw [List.getElem?_eq_getElem hjlt]
        simpa using hjeq
      rw [← hg]
      exact hall r2 j (by omega) hjlt)]

/-- Witness for `c5_download_paper`: a network in which the first round's
second mirror succeeds and which otherwise fails. -/
theorem c5_download_paper_w :
    download_paper
      ⟨fun r u => if r = 0 && u = "https://sci-hub.se/10.1/x" then some ⟨200, some "https://m/x.pdf"⟩
                  else some ⟨404, none⟩,
       fun _ u => if u = "https://m/x.pdf" then some ⟨200, "PDFBYTES"⟩ else none⟩
      "10.1/x" "7"
      = (some ("7.pdf", "PDFBYTES"), []) ∧
    download_paper ⟨fun _ _ => none, fun _ _ => none⟩ "10.1/x" "7"
      = (none, ["7: 10.1/x\n"]) := by
  constructor
  · exact (c5_download_paper _ "10.1/x" "7").1 "PDFBYTES" 0 1 (by decide) (by decide)
      (by decide)
      (fun r2 m2 hm2 hcase => by
        rcases hcase with h | ⟨rfl, h⟩
        · omega
        · have hm0 : m2 = 0 := by omega
          subst hm0
          decide)
  · exact (c5_download_paper _ "10.1/x" "7").2 (fun rs m h1 h2 => by
      simp [tryMirror])

/-! ## PDF-link resolution chain (download_papers.py lines 149-257, 647-721,
857-975)

HTTP traffic is abstracted as oracles on the request URL; the helper
functions `try_unpaywall_pdf` / `try_crossref_pdf` / `try_openalex_pdf`
(whose JSON post-processing is not at issue in the claims) are folded into
`Option String` oracles returning the PDF link they would extract, while the
guard clauses of those helpers and the whole control flow of
`fetch_pdf_via_doi` and `process_row` are translated concretely.  The
similarly external pieces `parse_pdf_from_html` (BeautifulSoup),
`guess_referer_from_pdf_url` (claim-irrelevant URL surgery) and
`requests.utils.quote` appear as explicit function parameters. -/

/-- A HEAD response (content negotiation): Content-Type, final URL after
redirects, and the `Link` header when present. -/
structure HeadResp where
  ctype : String
  url : String
  link : Option String

/-- A GET response for content negotiation. -/
structure GetResp where
  status : Nat
  ctype : String
  url : String
  link : Option String

/-- A GET response for the landing page. -/
structure HtmlResp where
  status : Nat
  text : String
  url : String

/-- The network as the resolution chain sees it (all requests keyed by URL;
`none` models a raised exception). -/
structure PaperNet where
  unpaywall : String → Option String
  crossrefPdf : String → Option String
  openalexPdf : String → Option String
  doiHead : String → Option HeadResp
  doiGet : String → Option GetResp
  landing : String → Option HtmlResp
  parseHtml : String → String → Option String

/-- One `<url>; param=...` element of a `Link` header (lines 163-186):
accepted when its `type`/`content-type` parameter contains
`application/pdf`, or its `rel` contains `alternate` and the type mentions
`pdf`. -/
def updateSeg (st : Option String × Option String) (seg : String) :
    Option String × Option String :=
  match splitOnce '=' (pyStrip seg.data) with
  | none => st
  | some (k0, v0) =>
    let k := pyLower ⟨pyStrip k0⟩
    let v : String := ⟨pyStripChars (fun c => c = Char.ofNat 34) (pyStrip v0)⟩
    if k == "type" || k == "content-type" then (some (pyLower v), st.2)
    else if k == "rel" then (st.1, some (pyLower v))
    else st

def linkPartPdf (part : String) : Option String :=
  let p := pyStripStr part
  if p = "" then none
  else if !(p.startsWith "<") then none
  else
    match splitOnce '>' p.data with
    | none => none
    | some (withLt, params) =>
      let url : String := ⟨withLt.drop 1⟩
      let st := ((String.mk params).splitOn ";").foldl updateSeg (none, none)
      let cOk := match st.1 with
        | some ct => containsSeq "application/pdf".data ct.data
        | none => false
      let relOk := match st.2 with
        | some rl => containsSeq "alternate".data rl.data &&
            (match st.1 with
             | some ct => containsSeq "pdf".data ct.data
             | none => false)
        | none => false
      if cOk || relOk then some url else none

/-- Python `parse_link_header_for_pdf` (lines 159-187): first comma-separated part
that advertises a PDF. -/
def parse_link_header_for_pdf (link : Option String) : Option String :=
  match link with
  | none => none
  | some s => (s.splitOn ",").findSome? linkPartPdf

/-- Python `try_unpaywall_pdf` guard clauses (lines 232-254): requires a truthy
email and DOI before the request is made. -/
def try_unpaywall_pdf (net : PaperNet) (email : Option String) (doi : String) :
    Option String :=
  match email with
  | none => none
  | some e => if e = "" then none else if doi = "" then none else net.unpaywall doi

/-- Python `try_crossref_pdf` guard clause (lines 190-212). -/
def try_crossref_pdf (net : PaperNet) (doi : String) : Option String :=
  if doi = "" then none else net.crossrefPdf doi

/-- Python `try_openalex_pdf` guard clause (lines 215-229). -/
def try_openalex_pdf (net : PaperNet) (doi : String) : Option String :=
  if doi = "" then none else net.openalexPdf doi

/-- The content-negotiation HEAD step (lines 671-684). -/
def headStep (net : PaperNet) (doiUrl : String) : Option (String × String) :=
  match net.doiHead doiUrl with
  | none => none
  | some h =>
    if containsSeq "application/pdf".data (pyLower h.ctype).data && h.url != "" then
      some (h.url, "doi-head-pdf")
    else
      match parse_link_header_for_pdf h.link with
      | some u => some (u, "doi-link-header")
      | none => none

/-- The content-negotiation GET step (lines 686-698). -/
def getStep (net : PaperNet) (doiUrl : String) : Option (String × String) :=
  match net.doiGet doiUrl with
  | none => none
  | some g =>
    if g.status == 200 then
      if containsSeq "application/pdf".data (pyLower g.ctype).data && g.url != "" then
        some (g.url, "doi-get-pdf")
      else
        match parse_link_header_for_pdf g.link with
        | some u => some (u, "doi-get-link")
        | none => none
    else none

/-- The landing-page scraping step (lines 700-708). -/
def htmlStep (net : PaperNet) (doiUrl : String) : Option (String × String) :=
  match net.landing doiUrl with
  | none => none
  | some r =>
    if r.status == 200 && r.text != "" then
      match net.parseHtml r.text r.url with
      | some cand => some (cand, "html-parse")
      | none => none
    else none

/-- Python `re.sub(r"\.s\d{2,4}$", "", doi)` (lines 710-719): remove a trailing
supplementary-material suffix `.sNN`–`.sNNNN`; `none` when the pattern does
not match.  Only the maximal trailing digit run can match, since a shorter
choice would leave a digit where the end anchor must sit. -/
def stripSuffixSNum (cs : List Char) : Option (List Char) :=
  let rev := cs.reverse
  let ds := rev.takeWhile isDigit
  if 2 ≤ ds.length && ds.length ≤ 4 then
    match rev.dropWhile isDigit with
    | c :: '.' :: rest2 =>
      if lowAscii c == 's' then some rest2.reverse else none
    | _ => none
  else none

/-- Python `fetch_pdf_via_doi` (lines 647-721), with a fuel argument bounding the
parent-DOI recursion (the recursion strictly shortens the DOI, so fuel equal
to the DOI length always suffices). -/
def fetch_pdf_via_doi (net : PaperNet) (q : String → String) (email : Option String) :
    Nat → String → Option String × String
  | 0, _ => (none, "no-pdf-from-doi")
  | fuel + 1, doi =>
    let doiNorm := normalize_doi doi
    if doiNorm = "" then (none, "empty-doi")
    else
      match try_unpaywall_pdf net email doiNorm with
      | some u => (some u, "unpaywall")
      | none =>
      match try_crossref_pdf net doiNorm with
      | some u => (some u, "crossref-link")
      | none =>
      match try_openalex_pdf net doiNorm with
      | some u => (some u, "openalex")
      | none =>
      match headStep net ("https://doi.org/" ++ q doiNorm) with
      | some (u, n) => (some u, n)
      | none =>
      match getStep net ("https://doi.org/" ++ q doiNorm) with
      | some (u, n) => (some u, n)
      | none =>
      match htmlStep net ("https://doi.org/" ++ q doiNorm) with
      | some (u, n) => (some u, n)
      | none =>
        match stripSuffixSNum doiNorm.data with
        | some parentChars =>
          if parentChars.isEmpty then (none, "no-pdf-from-doi")
          else
            match fetch_pdf_via_doi net q email fuel (String.mk parentChars) with
            | (some u, n) => (some u, "parent-doi:" ++ n)
            | (none, _) => (none, "no-pdf-from-doi")
        | none => (none, "no-pdf-from-doi")

/-- The context of one `process_row` call (lines 857-975): the resolution
network, the URL-quoting function, the Unpaywall email, the CLI flags, the
pre-existing-file state, the title→DOI lookup, the four distinct
`stream_download` call sites as `(ok, note)` oracles on the request URL, and
the Playwright fallback outcome. -/
structure RowCtx where
  net : PaperNet
  q : String → String
  email : Option String
  usePlaywright : Bool
  fileExists : Bool
  overwrite : Bool
  crossrefTitle : String → Option String
  guessRef : String → Option String
  dlDirect : String → Bool × String
  dlMain : String → Bool × String
  dlRetry : String → Bool × String
  dlFinal : String → Bool × String
  playwright : Bool × String

/-- The result of `process_row`: the `(status, notes)` log fields plus
whether the Playwright fallback was invoked. -/
structure RowResult where
  status : String
  note : String
  usedPW : Bool

/-- Lines 878-891 of `process_row`: resolve a PDF URL, preferring the DOI and
falling back to a Crossref title search.  Returns the (possibly updated) DOI,
the resolved URL, and the note. -/
def resolve_pdf (ctx : RowCtx) (doi0 title : String) :
    String × Option String × String :=
  let fr1 : Option String × String :=
    if doi0 != "" && is_probably_doi doi0 then
      fetch_pdf_via_doi ctx.net ctx.q ctx.email (doi0.length + 1) doi0
    else (none, "")
  match fr1.1 with
  | some u => (doi0, some u, fr1.2)
  | none =>
    if title != "" then
      match ctx.crossrefTitle title with
      | some crDoi =>
        match fetch_pdf_via_doi ctx.net ctx.q ctx.email (crDoi.length + 1) crDoi with
        | (some u, n) => (crDoi, some u, n)
        | (none, n) => (crDoi, none, "crossref-doi:" ++ n)
      | none => (doi0, none, fr1.2)
    else (doi0, none, fr1.2)

/-- The DOI-based referer used by `process_row` (line 910). -/
def rowDoiRef (ctx : RowCtx) (doi : String) : Option String :=
  if doi != "" then some ("https://doi.org/" ++ ctx.q (normalize_doi doi)) else none

/-- Lines 936-975 of `process_row`: the final DOI GET fallback followed by
the optional Playwright fallback. -/
def finalFallback (ctx : RowCtx) (doi pdfUrl dnote : String) : RowResult :=
  if doi != "" && is_probably_doi doi then
    if (ctx.dlFinal ("https://doi.org/" ++ ctx.q (normalize_doi doi))).1 then
      ⟨"downloaded", "doi-get-final", false⟩
    else if ctx.usePlaywright then
      if ctx.playwright.1 then ⟨"downloaded", ctx.playwright.2, true⟩
      else
        ⟨"error", dnote ++ "|" ++ pdfUrl ++ "|fallback:" ++
          (ctx.dlFinal ("https://doi.org/" ++ ctx.q (normalize_doi doi))).2 ++
          "|playwright:" ++ ctx.playwright.2, true⟩
    else
      ⟨"error", dnote ++ "|" ++ pdfUrl ++ "|fallback:" ++
        (ctx.dlFinal ("https://doi.org/" ++ ctx.q (normalize_doi doi))).2, false⟩
  else if ctx.usePlaywright then
    if ctx.playwright.1 then ⟨"downloaded", ctx.playwright.2, true⟩
    else ⟨"error", dnote ++ "|" ++ pdfUrl ++ "|playwright:" ++ ctx.playwright.2, true⟩
  else ⟨"error", dnote ++ "|" ++ pdfUrl, false⟩

/-- Lines 893-906 of `process_row`: no URL was resolved; last-chance direct
DOI GET, else `not_found`. -/
def rowNoUrl (ctx : RowCtx) (doi note : String) : RowResult :=
  if doi != "" && is_probably_doi doi then
    if (ctx.dlDirect ("https://doi.org/" ++ ctx.q (normalize_doi doi))).1 then
      ⟨"downloaded", "doi-get", false⟩
    else ⟨"not_found", (if note = "" then "no-pdf" else note), false⟩
  else ⟨"not_found", (if note = "" then "no-pdf" else note), false⟩

/-- Lines 908-935 of `process_row`: a URL was resolved; download it (after
the ignored cookie-priming pre-fetch of the article page), retrying once with
the DOI referer on `http-403`/`not-pdf`/`empty-file` when the referers
differ, then fall to `finalFallback`. -/
def rowWithUrl (ctx : RowCtx) (doi pdfUrl : String) : RowResult :=
  if !(ctx.dlMain pdfUrl).1 &&
      ((ctx.dlMain pdfUrl).2 == "http-403" || (ctx.dlMain pdfUrl).2 == "not-pdf" ||
        (ctx.dlMain pdfUrl).2 == "empty-file") &&
      (rowDoiRef ctx doi).isSome && (ctx.guessRef pdfUrl != rowDoiRef ctx doi) then
    if (ctx.dlRetry pdfUrl).1 then ⟨"downloaded", pdfUrl, false⟩
    else ⟨"error", (ctx.dlRetry pdfUrl).2 ++ "|" ++ pdfUrl, false⟩
  else if (ctx.dlMain pdfUrl).1 then ⟨"downloaded", pdfUrl, false⟩
  else finalFallback ctx doi pdfUrl (ctx.dlMain pdfUrl).2

/-- Python `process_row` (lines 857-975). -/
def process_row (ctx : RowCtx) (idx doi0 title : String) : RowResult :=
  if idx = "" then ⟨"no_index", "skip-empty-index", false⟩
  else if ctx.fileExists && !ctx.overwrite then ⟨"exists", "existing-path", false⟩
  else
    match resolve_pdf ctx doi0 title with
    | (doi, none, note) => rowNoUrl ctx doi note
    | (doi, some pdfUrl, _) => rowWithUrl ctx doi pdfUrl

/-- Lemma: `rowNoUrl` never invokes Playwright. -/
theorem rowNoUrl_no_pw (ctx : RowCtx) (doi note : String) :
    (rowNoUrl ctx doi note).usedPW = false := by
  unfold rowNoUrl
  split_ifs <;> rfl

/-- If `finalFallback` invoked Playwright, then the flag was set and, when
the DOI was usable, the final DOI GET had failed. -/
theorem finalFallback_pw (ctx : RowCtx) (doi pdfUrl dnote : String)
    (h : (finalFallback ctx doi pdfUrl dnote).usedPW = true) :
    ctx.usePlaywright = true ∧
    (doi ≠ "" ∧ is_probably_doi doi = true →
      (ctx.dlFinal ("https://doi.org/" ++ ctx.q (normalize_doi doi))).1 = false) := by
  unfold finalFallback at h
  split_ifs at h with h1 h2 h3 h4 h5 h6
  · exact ⟨h3, fun hd => by simpa using h2⟩
  · exact ⟨h3, fun hd => by simpa using h2⟩
  · refine ⟨h5, fun hd => ?_⟩
    exfalso
    apply h1
    simp only [Bool.and_eq_true, bne_iff_ne, ne_eq]
    exact ⟨hd.1, hd.2⟩
  · refine ⟨h5, fun hd => ?_⟩
    exfalso
    apply h1
    simp only [Bool.and_eq_true, bne_iff_ne, ne_eq]
    exact ⟨hd.1, hd.2⟩

/-- If `rowWithUrl` invoked Playwright, the first download had failed and the
`finalFallback` conditions hold. -/
theorem rowWithUrl_pw (ctx : RowCtx) (doi pdfUrl : String)
    (h : (rowWithUrl ctx doi pdfUrl).usedPW = true) :
    (ctx.dlMain pdfUrl).1 = false ∧ ctx.usePlaywright = true ∧
    (doi ≠ "" ∧ is_probably_doi doi = true →
      (ctx.dlFinal ("https://doi.org/" ++ ctx.q (normalize_doi doi))).1 = false) := by
  unfold rowWithUrl at h
  split_ifs at h with h1 h2 h3
  · rcases finalFallback_pw ctx doi pdfUrl (ctx.dlMain pdfUrl).2 h with ⟨hupw, hfin⟩
    exact ⟨by simpa using h3, hupw, hfin⟩

/-- Claim C1: the resolution chain.  For a DOI the chain consults Unpaywall,
then Crossref metadata, then OpenAlex, then DOI content negotiation (HEAD
before GET, each with `Link`-header parsing), then landing-page scraping, and
returns the first source that yields a URL; and the Playwright fallback of
`process_row` runs only when `--use-playwright` is given and every earlier
attempt has failed (a URL was resolved but its download and the final DOI GET
failed). -/
theorem c1_resolution_chain :
    (∀ (net : PaperNet) (q : String → String) (email : Option String)
        (fuel : Nat) (doi : String),
      (normalize_doi doi = "" →
        fetch_pdf_via_doi net q email (fuel + 1) doi = (none, "empty-doi")) ∧
      (∀ u, try_unpaywall_pdf net email (normalize_doi doi) = some u →
        fetch_pdf_via_doi net q email (fuel + 1) doi = (some u, "unpaywall")) ∧
      (∀ u, try_unpaywall_pdf net email (normalize_doi doi) = none →
        try_crossref_pdf net (normalize_doi doi) = some u →
        fetch_pdf_via_doi net q email (fuel + 1) doi = (some u, "crossref-link")) ∧
      (∀ u, try_unpaywall_pdf net email (normalize_doi doi) = none →
        try_crossref_pdf net (normalize_doi doi) = none →
        try_openalex_pdf net (normalize_doi doi) = some u →
        fetch_pdf_via_doi net q email (fuel + 1) doi = (some u, "openalex")) ∧
      (∀ u n, normalize_doi doi ≠ "" →
        try_unpaywall_pdf net email (normalize_doi doi) = none →
        try_crossref_pdf net (normalize_doi doi) = none →
        try_openalex_pdf net (normalize_doi doi) = none →
        headStep net ("https://doi.org/" ++ q (normalize_doi doi)) = some (u, n) →
        fetch_pdf_via_doi net q email (fuel + 1) doi = (some u, n)) ∧
      (∀ u n, normalize_doi doi ≠ "" →
        try_unpaywall_pdf net email (normalize_doi doi) = none →
        try_crossref_pdf net (normalize_doi doi) = none →
        try_openalex_pdf net (normalize_doi doi) = none →
        headStep net ("https://doi.org/" ++ q (normalize_doi doi)) = none →
        getStep net ("https://doi.org/" ++ q (normalize_doi doi)) = some (u, n) →
        fetch_pdf_via_doi net q email (fuel + 1) doi = (some u, n)) ∧
      (∀ u n, normalize_doi doi ≠ "" →
        try_unpaywall_pdf net email (normalize_doi doi) = none →
        try_crossref_pdf net (normalize_doi doi) = none →
        try_openalex_pdf net (normalize_doi doi) = none →
        headStep net ("https://doi.org/" ++ q (normalize_doi doi)) = none →
        getStep net ("https://doi.org/" ++ q (normalize_doi doi)) = none →
        htmlStep net ("https://doi.org/" ++ q (normalize_doi doi)) = some (u, n) →
        fetch_pdf_via_doi net q email (fuel + 1) doi = (some u, n))) ∧
    (∀ (ctx : RowCtx) (idx doi0 title : String),
      (process_row ctx idx doi0 title).usedPW = true →
      ctx.usePlaywright = true ∧
      ∃ doi url note, resolve_pdf ctx doi0 title = (doi, some url, note) ∧
        (ctx.dlMain url).1 = false ∧
        (doi ≠ "" ∧ is_probably_doi doi = true →
          (ctx.dlFinal ("https://doi.org/" ++ ctx.q (normalize_doi doi))).1 = false)) := by
  constructor
  · intro net q email fuel doi
    refine ⟨?_, ?_, ?_, ?_, ?_, ?_, ?_⟩
    · intro hdn
      simp only [fetch_pdf_via_doi]
      rw [if_pos hdn]
    · intro u hU
      have hdn : normalize_doi doi ≠ "" := by
        intro hcon
        rw [hcon] at hU
        unfold try_unpaywall_pdf at hU
        rcases email with _ | e
        · exact absurd hU (by simp)
        · by_cases he : e = "" <;> simp [he] at hU
      simp only [fetch_pdf_via_doi]
      rw [if_neg hdn, hU]
    · intro u hU hC
      have hdn : normalize_doi doi ≠ "" := by
        intro hcon
        rw [hcon] at hC
        unfold try_crossref_pdf at hC
        simp at hC
      simp only [fetch_pdf_via_doi]
      rw [if_neg hdn, hU, hC]
    · intro u hU hC hO
      have hdn : normalize_doi doi ≠ "" := by
        intro hcon
        rw [hcon] at hO
        unfold try_openalex_pdf at hO
        simp at hO
      simp only [fetch_pdf_via_doi]
      rw [if_neg hdn, hU, hC, hO]
    · intro u n hdn hU hC hO hH
      simp only [fetch_pdf_via_doi]
      rw [if_neg hdn, hU, hC, hO, hH]
    · intro u n hdn hU hC hO hH hG
      simp only [fetch_pdf_via_doi]
      rw [if_neg hdn, hU, hC, hO, hH, hG]
    · intro u n hdn hU hC hO hH hG hM
      simp only [fetch_pdf_via_doi]
      rw [if_neg hdn, hU, hC, hO, hH, hG, hM]
  · intro ctx idx doi0 title hpw
    by_cases hidx : idx = ""
    · have heq : process_row ctx idx doi0 title = ⟨"no_index", "skip-empty-index", false⟩ := by
        unfold process_row
        rw [if_pos hidx]
      rw [heq] at hpw
      exact absurd hpw (by simp)
    · by_cases hex : (ctx.fileExists && !ctx.overwrite) = true
      · have heq : process_row ctx idx doi0 title = ⟨"exists", "existing-path", false⟩ := by
          unfold process_row
          rw [if_neg hidx, if_pos hex]
        rw [heq] at hpw
        exact absurd hpw (by simp)
      · rcases hres : resolve_pdf ctx doi0 title with ⟨doi, url?, note⟩
        rcases url? with _ | url
        · have heq : process_row ctx idx doi0 title = rowNoUrl ctx doi note := by
            unfold process_row
            rw [if_neg hidx, if_neg hex, hres]
          rw [heq, rowNoUrl_no_pw] at hpw
          exact absurd hpw (by simp)
        · have heq : process_row ctx idx doi0 title = rowWithUrl ctx doi url := by
            unfold process_row
            rw [if_neg hidx, if_neg hex, hres]
          rw [heq] at hpw
          rcases rowWithUrl_pw ctx doi url hpw with ⟨hdl, hupw, hfin⟩
          exact ⟨hupw, doi, url, note, rfl, hdl, hfin⟩

/-- Witness for `c1_resolution_chain`: a network in which only OpenAlex has
the PDF resolves through the first three stages in order. -/
theorem c1_resolution_chain_w :
    fetch_pdf_via_doi
      ⟨fun _ => none, fun _ => none, fun _ => some "https://oa.example/p.pdf",
       fun _ => none, fun _ => none, fun _ => none, fun _ _ => none⟩
      (fun s => s) (some "a@b.c") 11 "10.1234/abc"
      = (some "https://oa.example/p.pdf", "openalex") := by
  exact ((c1_resolution_chain.1
    ⟨fun _ => none, fun _ => none, fun _ => some "https://oa.example/p.pdf",
     fun _ => none, fun _ => none, fun _ => none, fun _ _ => none⟩
    (fun s => s) (some "a@b.c") 10 "10.1234/abc").2.2.2.1
    "https://oa.example/p.pdf" (by decide) (by decide) (by decide))

/-! ## Markdown image substitution (DMH/my_tips.py lines 87-135) -/

/-- Try to match the image regex `!\[[^\]]*\]\(([^)]+)\)` at the head of the
character list, returning the alt text, the captured URL and the rest after
the match.  The two character classes are maximal runs, so the match is
deterministic. -/
def matchImageAt (cs : List Char) : Option (String × String × List Char) :=
  match cs with
  | '!' :: '[' :: rest =>
    let alt := rest.takeWhile (fun c => c != ']')
    (match rest.dropWhile (fun c => c != ']') with
     | ']' :: '(' :: rest2 =>
       let url := rest2.takeWhile (fun c => c != ')')
       if url.isEmpty then none
       else
         match rest2.dropWhile (fun c => c != ')') with
         | ')' :: rest3 => some (⟨alt⟩, ⟨url⟩, rest3)
         | _ => none
     | _ => none)
  | _ => none

/-- Lemma: `dropWhile` never lengthens a list. -/
theorem dropWhile_len_le (p : Char → Bool) (l : List Char) :
    (l.dropWhile p).length ≤ l.length :=
  (List.dropWhile_sublist (l := l) (p := p)).length_le

/-- Any successful image match consumes at least one character, so the rest
is strictly shorter than the input. -/
theorem matchImageAt_rest_lt (cs : List Char) (alt url : String) (rest : List Char)
    (h : matchImageAt cs = some (alt, url, rest)) : rest.length < cs.length := by
  unfold matchImageAt at h
  split at h
  next r1 =>
    split at h
    next r2 hd =>
      have hlen2 : r2.length + 2 ≤ r1.length := by
        have := dropWhile_len_le (fun c => (c != ']')) r1
        rw [hd] at this
        simpa using this
      split at h
      next rest3 hdrop =>
        have hlen4 : rest3.length + 1 ≤ r2.length := by
          have := dropWhile_len_le (fun c => (c != ')')) r2
          rw [hdrop] at this
          simpa using this
        by_cases hurl : (List.takeWhile (fun c => c != ')') r2).isEmpty = true
        · rw [if_pos hurl] at h
          exact absurd h (by simp)
        · rw [if_neg hurl] at h
          simp only [Option.some.injEq, Prod.mk.injEq] at h
          have hr : rest = rest3 := h.2.2.symm
          subst hr
          simp only [List.length_cons]
          omega
      next hdrop =>
        exact absurd h (by simp)
    next hd =>
      exact absurd h (by simp)
  next hd =>
    exact absurd h (by simp)

/-- Python `re.sub(img_pat, repl, line)` as a fuel-indexed left-to-right scan; fuel
equal to the input length always suffices (each step consumes a character). -/
def imageSubF (repl : String → String) : Nat → List Char → List Char
  | 0, cs => cs
  | _ + 1, [] => []
  | fuel + 1, c :: cs =>
    match matchImageAt (c :: cs) with
    | some (_, url2, rest) => (repl url2).data ++ imageSubF repl fuel rest
    | none => c :: imageSubF repl fuel cs

/-- The image-substitution pass on one line (lines 123-135). -/
def imageSub (repl : String → String) (cs : List Char) : List Char :=
  imageSubF repl cs.length cs

/-- Does the image regex match anywhere in the text? -/
def containsImagePat : List Char → Bool
  | [] => false
  | c :: cs => (matchImageAt (c :: cs)).isSome || containsImagePat cs

/-- The decomposition computed by the same scan: leading gap plus a list of
(alt, url, following gap) triples, one per regex match. -/
def imgDecompF : Nat → List Char → List Char × List (String × String × List Char)
  | 0, cs => (cs, [])
  | _ + 1, [] => ([], [])
  | fuel + 1, c :: cs =>
    match matchImageAt (c :: cs) with
    | some (alt2, url2, rest) =>
      ([], (alt2, url2, (imgDecompF fuel rest).1) :: (imgDecompF fuel rest).2)
    | none => (c :: (imgDecompF fuel cs).1, (imgDecompF fuel cs).2)

def imgDecomp (cs : List Char) : List Char × List (String × String × List Char) :=
  imgDecompF cs.length cs

/-- The exact text of an image match. -/
def imgText (alt url : String) : List Char :=
  '!' :: '[' :: (alt.data ++ ']' :: '(' :: (url.data ++ [')']))

/-- Reassemble a decomposition with the original image texts. -/
def rebuildOrigImg (d : List Char × List (String × String × List Char)) : List Char :=
  d.1 ++ d.2.flatMap (fun t => imgText t.1 t.2.1 ++ t.2.2)

/-- Reassemble a decomposition with each image replaced through `repl`. -/
def rebuildSubImg (repl : String → String)
    (d : List Char × List (String × String × List Char)) : List Char :=
  d.1 ++ d.2.flatMap (fun t => (repl t.2.1).data ++ t.2.2)

/-- A successful match reconstructs the consumed prefix exactly. -/
theorem matchImageAt_recon (cs : List Char) (alt url : String) (rest : List Char)
    (h : matchImageAt cs = some (alt, url, rest)) : cs = imgText alt url ++ rest := by
  unfold matchImageAt at h
  split at h
  next r1 =>
    split at h
    next r2 hd =>
      split at h
      next rest3 hdrop =>
        by_cases hurl : (List.takeWhile (fun c => c != ')') r2).isEmpty = true
        · rw [if_pos hurl] at h
          exact absurd h (by simp)
        · rw [if_neg hurl] at h
          simp only [Option.some.injEq, Prod.mk.injEq] at h
          rcases h with ⟨halt, hurl2, hrest⟩
          subst hrest
          have e1 : r1 = List.takeWhile (fun c => c != ']') r1 ++ (']' :: '(' :: r2) := by
            rw [← hd]
            exact (List.takeWhile_append_dropWhile _ _).symm
          have e2 : r2 = List.takeWhile (fun c => c != ')') r2 ++ (')' :: rest3) := by
            rw [← hdrop]
            exact (List.takeWhile_append_dropWhile _ _).symm
          have halt2 : alt.data = List.takeWhile (fun c => c != ']') r1 := by
            rw [← halt]
          have hurl3 : url.data = List.takeWhile (fun c => c != ')') r2 := by
            rw [← hurl2]
          unfold imgText
          simp only [List.cons_append, List.append_assoc]
          congr 2
          rw [← halt2] at e1
          rw [← hurl3] at e2
          rw [e1, e2]
          simp
      next hdrop =>
        exact absurd h (by simp)
    next hd =>
      exact absurd h (by simp)
  next hd =>
    exact absurd h (by simp)

/-- Parallel induction: the decomposition reassembles the input exactly, and
the substitution pass equals the decomposition with images replaced. -/
theorem imgDecompF_spec (repl : String → String) (fuel : Nat) (cs : List Char) :
    rebuildOrigImg (imgDecompF fuel cs) = cs ∧
    imageSubF repl fuel cs = rebuildSubImg repl (imgDecompF fuel cs) := by
  induction fuel generalizing cs with
  | zero =>
    simp [imgDecompF, imageSubF, rebuildOrigImg, rebuildSubImg]
  | succ f ih =>
    cases cs with
    | nil => simp [imgDecompF, imageSubF, rebuildOrigImg, rebuildSubImg]
    | cons c cs1 =>
      rcases hm : matchImageAt (c :: cs1) with _ | ⟨alt2, url2, rest⟩
      · unfold imgDecompF imageSubF
        rw [hm]
        rcases ih cs1 with ⟨ih1, ih2⟩
        constructor
        · unfold rebuildOrigImg at ih1 ⊢
          simpa using ih1
        · unfold rebuildSubImg at ih2 ⊢
          simpa using ih2
      · unfold imgDecompF imageSubF
        rw [hm]
        rcases ih rest with ⟨ih1, ih2⟩
        have hrecon := matchImageAt_recon (c :: cs1) alt2 url2 rest hm
        constructor
        · unfold rebuildOrigImg at ih1 ⊢
          simp only [List.flatMap_cons, List.nil_append, List.append_assoc]
          rw [ih1]
          exact hrecon.symm
        · unfold rebuildSubImg at ih2 ⊢
          simp only [List.flatMap_cons, List.nil_append, List.append_assoc]
          rw [ih2]

/-- Lemma: `takeWhile` runs through a satisfying prefix. -/
theorem takeWhile_all_append (p : Char → Bool) (l r : List Char)
    (h : ∀ c ∈ l, p c = true) :
    (l ++ r).takeWhile p = l ++ r.takeWhile p := by
  induction l with
  | nil => simp
  | cons a l1 ih =>
    simp only [List.cons_append, List.takeWhile_cons]
    rw [h a (List.mem_cons_self _ _)]
    simp only [if_true]
    rw [ih (fun c hc => h c (List.mem_cons_of_mem _ hc))]

/-- Lemma: `dropWhile` runs through a satisfying prefix. -/
theorem dropWhile_all_append (p : Char → Bool) (l r : List Char)
    (h : ∀ c ∈ l, p c = true) :
    (l ++ r).dropWhile p = r.dropWhile p := by
  induction l with
  | nil => simp
  | cons a l1 ih =>
    simp only [List.cons_append, List.dropWhile_cons]
    rw [h a (List.mem_cons_self _ _)]
    simp only [if_true]
    exact ih (fun c hc => h c (List.mem_cons_of_mem _ hc))

/-- On a well-formed single image, the scanner matches exactly that image. -/
theorem matchImageAt_imgText (alt url : String)
    (halt : ∀ c ∈ alt.data, c ≠ ']') (hurl1 : url.data ≠ [])
    (hurl2 : ∀ c ∈ url.data, c ≠ ')') :
    matchImageAt (imgText alt url) = some (alt, url, []) := by
  unfold imgText matchImageAt
  have ht1 : (alt.data ++ ']' :: '(' :: (url.data ++ [')'])).takeWhile
      (fun c => c != ']') = alt.data := by
    rw [takeWhile_all_append _ _ _ (fun c hc => by simpa using halt c hc)]
    simp [List.takeWhile_cons]
  have hd1 : (alt.data ++ ']' :: '(' :: (url.data ++ [')'])).dropWhile
      (fun c => c != ']') = ']' :: '(' :: (url.data ++ [')']) := by
    rw [dropWhile_all_append _ _ _ (fun c hc => by simpa using halt c hc)]
    simp [List.dropWhile_cons]
  simp only [hd1]
  have ht2 : (url.data ++ [')']).takeWhile (fun c => c != ')') = url.data := by
    rw [takeWhile_all_append _ _ _ (fun c hc => by simpa using hurl2 c hc)]
    simp [List.takeWhile_cons]
  have hd2 : (url.data ++ [')']).dropWhile (fun c => c != ')') = [')'] := by
    rw [dropWhile_all_append _ _ _ (fun c hc => by simpa using hurl2 c hc)]
    simp [List.dropWhile_cons]
  simp only [ht2, hd2]
  rw [if_neg (by simpa using hurl1)]
  simp [ht1]

/-- Python `os.path.basename` (POSIX): the part after the last `/`. -/
def basename (url : String) : String :=
  ⟨(url.data.reverse.takeWhile (fun c => c != '/')).reverse⟩

/-- Python `' '.join([str(x).strip() for x in xs if x])`. -/
def joinNonempty (xs : List String) : String :=
  String.intercalate " " ((xs.filter (fun x => x != "")).map pyStripStr)

/-- A `*_content_list.json` item as the table-substitution pass reads it
(`""` models a missing/falsy field). -/
structure ContentItem where
  type : String
  img_path : String
  table_body : String
  table_caption : List String
  table_footnote : List String

/-- The HTML block substituted for a table image (lines 102-112). -/
def tableHtml (it : ContentItem) : String :=
  let cap := joinNonempty it.table_caption
  let caption := if cap != "" then "<p><em>" ++ cap ++ "</em></p>\n" else ""
  let foot := joinNonempty it.table_footnote
  let tfoot := if foot != "" then "\n<p><small>" ++ foot ++ "</small></p>\n" else ""
  "\n<!-- table:start " ++ (basename it.img_path ++ (" -->\n" ++ (caption ++
    (it.table_body ++ (tfoot ++ "<!-- table:end -->\n")))))

/-- Building the table map (lines 88-118): each qualifying item registers its
HTML under both the basename and the full `img_path`; later items overwrite
earlier ones (Python dict assignment). -/
def buildTableMap (items : List ContentItem) : String → Option String :=
  items.foldl
    (fun tm it =>
      if it.type == "table" && it.img_path != "" && it.table_body != "" then
        fun k => if k == basename it.img_path || k == it.img_path then some (tableHtml it)
                 else tm k
      else tm)
    (fun _ => none)

/-- The `repl` function of the image pass (lines 126-133): substitute the
recorded HTML when the basename or full URL is a key, delete otherwise.
(When both lookups return a falsy value while a key is present, the Python
code would pass `None` to `re.sub` and crash; `buildTableMap` never stores a
falsy value, see `buildTableMap_shape`.) -/
def tableRepl (tm : String → Option String) (url : String) : String :=
  if (tm (basename url)).isSome || (tm url).isSome then
    match pyOrStr (tm (basename url)) (tm url) with
    | some h => h
    | none => ""
  else ""

/-- A list is a prefix of itself extended. -/
theorem prefixOfAux_append (l r : List Char) : prefixOfAux l (l ++ r) = true := by
  induction l with
  | nil => rfl
  | cons a l1 ih => simpa [prefixOfAux] using ih

/-- A needle is found in any extension to the right. -/
theorem containsSeq_self_append (n r : List Char) : containsSeq n (n ++ r) = true := by
  cases n with
  | nil =>
    cases r with
    | nil => rfl
    | cons c r1 => simp [containsSeq, prefixOfAux]
  | cons a n1 =>
    simp only [containsSeq, List.cons_append, List.append_eq]
    rw [show prefixOfAux (a :: n1) (a :: (n1 ++ r)) = true from by
      simpa [prefixOfAux] using prefixOfAux_append n1 r]
    simp

/-- A needle found in `r` is found in `x ++ r`. -/
theorem containsSeq_append_right (n x r : List Char) (h : containsSeq n r = true) :
    containsSeq n (x ++ r) = true := by
  induction x with
  | nil => simpa using h
  | cons c x1 ih =>
    cases n with
    | nil => simp [containsSeq, prefixOfAux]
    | cons a n1 =>
      simp only [containsSeq, List.cons_append, List.append_eq]
      rw [ih]
      simp

/-- Generalized fold invariant for `buildTableMap`. -/
theorem buildTableMap_aux (k h : String) (items : List ContentItem) :
    ∀ (tm0 : String → Option String),
      (items.foldl
        (fun tm it =>
          if it.type == "table" && it.img_path != "" && it.table_body != "" then
            fun k2 => if k2 == basename it.img_path || k2 == it.img_path then
                some (tableHtml it)
              else tm k2
          else tm) tm0) k = some h →
      tm0 k = some h ∨ ∃ it, h = tableHtml it := by
  induction items with
  | nil => intro tm0 h0; exact Or.inl h0
  | cons it rest ih =>
    intro tm0 h0
    simp only [List.foldl_cons] at h0
    rcases ih _ h0 with hstep | hok
    · by_cases hc : (it.type == "table" && it.img_path != "" && it.table_body != "") = true
      · rw [if_pos hc] at hstep
        by_cases hk2 : (k == basename it.img_path || k == it.img_path) = true
        · rw [if_pos hk2] at hstep
          exact Or.inr ⟨it, (Option.some.inj hstep).symm⟩
        · rw [if_neg hk2] at hstep
          exact Or.inl hstep
      · rw [if_neg hc] at hstep
        exact Or.inl hstep
    · exact Or.inr hok

/-- Every value stored by `buildTableMap` is a `tableHtml`. -/
theorem buildTableMap_shape (items : List ContentItem) (k h : String)
    (hk : buildTableMap items k = some h) :
    ∃ it, h = tableHtml it := by
  rcases buildTableMap_aux k h items (fun _ => none) hk with hcon | hok
  · exact absurd hcon (by simp)
  · exact hok

/-- A string is a prefix of any right-extension of itself. -/
theorem strPrefix_append (s t : String) : prefixOfAux s.data (s ++ t).data = true := by
  rw [String.data_append]
  exact prefixOfAux_append _ _

/-- A needle found in `t` is found in `s ++ t`. -/
theorem strContains_append (n : List Char) (s t : String)
    (h : containsSeq n t.data = true) : containsSeq n (s ++ t).data = true := by
  rw [String.data_append]
  exact containsSeq_append_right _ _ _ h

/-- Lemma: `tableHtml` starts with the table-start comment and contains the
table-end comment. -/
theorem tableHtml_wrapped (it : ContentItem) :
    prefixOfAux "\n<!-- table:start ".data (tableHtml it).data = true ∧
    containsSeq "<!-- table:end -->".data (tableHtml it).data = true := by
  unfold tableHtml
  constructor
  · exact strPrefix_append _ _
  · apply strContains_append
    apply strContains_append
    apply strContains_append
    apply strContains_append
    apply strContains_append
    apply strContains_append
    decide

/-! ## Math-span pass (DMH/my_tips.py lines 176-232)

The per-span rewriting `normalize_math_text` (lines 177-211) is a chain of
regex substitutions applied only to the text captured inside a span; the
claims concern the span scoping, so the pass is parameterized by the inner
transformation `f`. -/

/-- Find the lazy close of `\$(.+?)\$` after an opening `$`: the nearest
later `$` with at least one character in between and no newline (`.` does
not match a newline).  Returns the inner text and the remainder. -/
def findCloseAux (acc : List Char) : List Char → Option (List Char × List Char)
  | [] => none
  | c :: cs =>
    if c = '\n' then none
    else if c = '$' && !acc.isEmpty then some (acc.reverse, cs)
    else findCloseAux (c :: acc) cs

/-- Lemma: `findCloseAux` consumes at least the closing character. -/
theorem findCloseAux_rest_lt (acc cs : List Char) (inner rest : List Char)
    (h : findCloseAux acc cs = some (inner, rest)) : rest.length < cs.length := by
  induction cs generalizing acc with
  | nil => simp [findCloseAux] at h
  | cons c cs1 ih =>
    unfold findCloseAux at h
    by_cases hn : c = '\n'
    · rw [if_pos hn] at h
      exact absurd h (by simp)
    · rw [if_neg hn] at h
      by_cases hd : (c = '$' && !acc.isEmpty) = true
      · rw [if_pos hd] at h
        have h2 := congrArg (fun p : List Char × List Char => p.2) (Option.some.inj h)
        have h3 : rest = cs1 := by simpa using h2.symm
        subst h3
        simp
      · rw [if_neg hd] at h
        have := ih (c :: acc) h
        simp only [List.length_cons] at this ⊢
        omega

/-- The scan of lines 213-231 with the inner transformation `f`, as a
fuel-indexed recursion (fuel equal to the length always suffices). -/
def applyMathF (f : List Char → List Char) : Nat → List Char → List Char
  | 0, cs => cs
  | _ + 1, [] => []
  | fuel + 1, c :: cs =>
    if c = '$' then
      match findCloseAux [] cs with
      | some (inner, rest) => '$' :: (f inner ++ '$' :: applyMathF f fuel rest)
      | none => c :: applyMathF f fuel cs
    else c :: applyMathF f fuel cs

/-- The math pass on one line. -/
def applyMath (f : List Char → List Char) (cs : List Char) : List Char :=
  applyMathF f cs.length cs

/-- The span decomposition computed by the same scan: leading gap plus
(inner, following gap) pairs. -/
def mathDecompF : Nat → List Char → List Char × List (List Char × List Char)
  | 0, cs => (cs, [])
  | _ + 1, [] => ([], [])
  | fuel + 1, c :: cs =>
    if c = '$' then
      match findCloseAux [] cs with
      | some (inner, rest) =>
        ([], (inner, (mathDecompF fuel rest).1) :: (mathDecompF fuel rest).2)
      | none => (c :: (mathDecompF fuel cs).1, (mathDecompF fuel cs).2)
    else (c :: (mathDecompF fuel cs).1, (mathDecompF fuel cs).2)

def mathDecomp (cs : List Char) : List Char × List (List Char × List Char) :=
  mathDecompF cs.length cs

/-- Reassemble a span decomposition, transforming each inner text by `f`
(`f = id` reconstructs the input). -/
def rebuildMath (f : List Char → List Char)
    (d : List Char × List (List Char × List Char)) : List Char :=
  d.1 ++ d.2.flatMap (fun t => '$' :: (f t.1 ++ '$' :: t.2))

/-- A successful close reconstructs the consumed text. -/
theorem findCloseAux_recon (acc cs inner rest : List Char)
    (h : findCloseAux acc cs = some (inner, rest)) :
    acc.reverse ++ cs = inner ++ '$' :: rest := by
  induction cs generalizing acc with
  | nil => simp [findCloseAux] at h
  | cons c cs1 ih =>
    unfold findCloseAux at h
    by_cases hn : c = '\n'
    · rw [if_pos hn] at h
      exact absurd h (by simp)
    · rw [if_neg hn] at h
      by_cases hd : (c = '$' && !acc.isEmpty) = true
      · rw [if_pos hd] at h
        simp only [Option.some.injEq, Prod.mk.injEq] at h
        rcases h with ⟨h1, h2⟩
        subst h1
        subst h2
        have hc : c = '$' := by
          simp only [Bool.and_eq_true, decide_eq_true_eq] at hd
          exact hd.1
        subst hc
        rfl
      · rw [if_neg hd] at h
        have := ih (c :: acc) h
        simpa using this

/-- The math pass leaves every character outside the `$...$` spans unchanged:
the decomposition reassembled with the identity is the input, and the pass
equals the decomposition reassembled with `f` applied to the inner spans
only. -/
theorem mathDecompF_spec (f : List Char → List Char) (fuel : Nat) (cs : List Char) :
    rebuildMath (fun m => m) (mathDecompF fuel cs) = cs ∧
    applyMathF f fuel cs = rebuildMath f (mathDecompF fuel cs) := by
  induction fuel generalizing cs with
  | zero => simp [mathDecompF, applyMathF, rebuildMath]
  | succ fu ih =>
    cases cs with
    | nil => simp [mathDecompF, applyMathF, rebuildMath]
    | cons c cs1 =>
      by_cases hc : c = '$'
      · rcases hm : findCloseAux [] cs1 with _ | ⟨inner, rest⟩
        · unfold mathDecompF applyMathF
          rw [if_pos hc, hm]
          rcases ih cs1 with ⟨ih1, ih2⟩
          constructor
          · unfold rebuildMath at ih1 ⊢
            simpa using ih1
          · unfold rebuildMath at ih2 ⊢
            simpa using ih2
        · unfold mathDecompF applyMathF
          rw [if_pos hc, hm]
          rcases ih rest with ⟨ih1, ih2⟩
          have hrecon : cs1 = inner ++ '$' :: rest := by
            have := findCloseAux_recon [] cs1 inner rest hm
            simpa using this
          subst hc
          constructor
          · unfold rebuildMath at ih1 ⊢
            simp only [List.flatMap_cons, List.nil_append, List.cons_append,
              List.append_assoc]
            rw [ih1, hrecon]
          · unfold rebuildMath at ih2 ⊢
            simp only [List.flatMap_cons, List.nil_append, List.cons_append,
              List.append_assoc]
            rw [ih2]
            simp
      · unfold mathDecompF applyMathF
        rw [if_neg hc, if_neg hc]
        rcases ih cs1 with ⟨ih1, ih2⟩
        constructor
        · unfold rebuildMath at ih1 ⊢
          simpa using ih1
        · unfold rebuildMath at ih2 ⊢
          simpa using ih2

/-! ## Blank-line handling and the extract_md pipeline
(DMH/my_tips.py lines 59-397) -/

/-- Is a line blank after stripping (`l.strip() == ""`)? -/
def isBlankLine (s : String) : Bool := (pyStrip s.data).isEmpty

/-- Python `s.endswith("\n")`: the last character is a newline. -/
def endsWithNl (s : String) : Bool :=
  match s.data.getLast? with
  | some c => c = '\n'
  | none => false

/-- Line 139: `l.rstrip() + ("\n" if not l.endswith("\n") else "")`.
Note the condition tests the *original* line, so a line that arrived with a
newline loses it (the rstrip removed it) and only a line that arrived
without one gains it. -/
def rstripNl (s : String) : String :=
  pyRstripWs s ++ (if endsWithNl s then "" else "\n")

/-- Lines 142-149: collapse runs of blank lines, dropping leading ones
(`prev_blank` starts `True`). -/
def collapseBlanks : Bool → List String → List String
  | _, [] => []
  | prevBlank, l :: ls =>
    if isBlankLine l && prevBlank then collapseBlanks prevBlank ls
    else l :: collapseBlanks (isBlankLine l) ls

/-- Lines 151-152: pop trailing blank lines. -/
def dropTrailingBlanks (ls : List String) : List String :=
  (ls.reverse.dropWhile isBlankLine).reverse

/-- Lines 153-154: give the last line a newline when it lacks one. -/
def fixLastNl (ls : List String) : List String :=
  match ls.getLast? with
  | none => []
  | some lst => if endsWithNl lst then ls else ls.dropLast ++ [lst ++ "\n"]

/-- The whole blank-collapsing stage (lines 141-154). -/
def collapseStage (ls : List String) : List String :=
  fixLastNl (dropTrailingBlanks (collapseBlanks true ls))

/-! ### The figure-caption pattern (line 162)

`^(figure|fig\.?|图|scheme|schematic|graph|chart)\s*[\.:]?\s*(?:[A-Za-z]*\s*)?(?:[IVXLCDM]+|S?\d+)\b`
with `re.I`.  The optional/starred pieces are implemented as nondeterministic
suffix sets, so the boolean result coincides with the backtracking regex. -/

/-- Python regex `\w` (restricted to ASCII; the scripts' boundary checks only
involve ASCII (digits, roman numerals, letters)). -/
def isWordChar (c : Char) : Bool := c.isAlphanum || c = '_'

def isAsciiLetter (c : Char) : Bool := c.isAlpha

/-- Suffixes obtainable by consuming at least one leading `p`-character. -/
def consumeSome (p : Char → Bool) : List Char → List (List Char)
  | [] => []
  | c :: cs => if p c then cs :: consumeSome p cs else []

/-- Suffixes obtainable by consuming zero or more leading `p`-characters. -/
def consumeStar (p : Char → Bool) (cs : List Char) : List (List Char) :=
  cs :: consumeSome p cs

/-- Pattern `\b` after a word character: end of input or a non-word character. -/
def boundaryAfter : List Char → Bool
  | [] => true
  | c :: _ => !isWordChar c

def isRomanCi (c : Char) : Bool :=
  lowAscii c = 'i' || lowAscii c = 'v' || lowAscii c = 'x' || lowAscii c = 'l' ||
  lowAscii c = 'c' || lowAscii c = 'd' || lowAscii c = 'm'

/-- Pattern `(?:[IVXLCDM]+|S?\d+)\b`. -/
def figNumTail (r : List Char) : Bool :=
  (consumeSome isRomanCi r).any boundaryAfter ||
  ((r :: (match r with
          | c :: rest => if lowAscii c == 's' then [rest] else []
          | [] => [])).any
    fun r2 => (consumeSome isDigit r2).any boundaryAfter)

/-- Pattern `[\.:]?`. -/
def punctOpt (r : List Char) : List (List Char) :=
  r :: (match r with
        | c :: rest => if c = '.' || c = ':' then [rest] else []
        | [] => [])

def figAlts : List String :=
  ["figure", "fig.", "fig", "图", "scheme", "schematic", "graph", "chart"]

def figPat (s : List Char) : Bool :=
  figAlts.any fun lit =>
    match stripCi lit.data s with
    | none => false
    | some r1 =>
      (consumeStar pyIsSpace r1).any fun r2 =>
        (punctOpt r2).any fun r3 =>
          (consumeStar pyIsSpace r3).any fun r4 =>
            ((r4 :: (consumeSome isAsciiLetter r4).flatMap
                (consumeStar pyIsSpace)).any figNumTail)

/-- Lines 159-173: drop figure-caption paragraphs (the caption line and all
following lines up to and including the next blank line). -/
def dropFigCaps : Bool → List String → List String
  | _, [] => []
  | skip, ln :: rest =>
    if !skip && figPat (pyStrip ln.data) then dropFigCaps true rest
    else if skip then
      (if isBlankLine ln then dropFigCaps false rest else dropFigCaps true rest)
    else ln :: dropFigCaps skip rest

/-! ### Reference-section detection (lines 234-323) -/

/-- Scan every suffix for a position-anchored predicate (`re.search`). -/
def searchAny (p : List Char → Bool) : List Char → Bool
  | [] => p []
  | c :: cs => p (c :: cs) || searchAny p cs

def titleLits : List String :=
  ["参考文献", "参考资料", "references", "bibliography", "works cited",
   "notes and references", "references and notes", "literature cited"]

/-- The heading pattern
`^(#+\s*)?(参考文献|...|Literature Cited)\b` with `re.I` (line 238). -/
def titleMatch (s : String) : Bool :=
  (s.data :: (consumeSome (fun c => c = '#') s.data).flatMap (consumeStar pyIsSpace)).any
    fun r =>
      titleLits.any fun lit =>
        match stripCi lit.data r with
        | some rest => boundaryAfter rest
        | none => false

/-- Pattern `^(\[\d+[a-z]?\]|\d{1,3}[\.)]|[a-z]\))\s+` with `re.I` (line 256). -/
def numberedStart (s : List Char) : Bool :=
  let wsHead : List Char → Bool := fun r =>
    match r with
    | c :: _ => pyIsSpace c
    | [] => false
  let alt1 : List (List Char) :=
    match s with
    | '[' :: r =>
      let ds := r.takeWhile isDigit
      if ds.isEmpty then []
      else
        match r.dropWhile isDigit with
        | ']' :: r2 => [r2]
        | c :: ']' :: r2 => if isAsciiLetter c then [r2] else []
        | _ => []
    | _ => []
  let alt2 : List (List Char) :=
    (let ds := s.takeWhile isDigit
     if 1 ≤ ds.length && ds.length ≤ 3 then
       match s.dropWhile isDigit with
       | c :: r2 => if c = '.' || c = ')' then [r2] else []
       | [] => []
     else [])
  let alt3 : List (List Char) :=
    match s with
    | c :: ')' :: r2 => if isAsciiLetter c then [r2] else []
    | _ => []
  (alt1 ++ alt2 ++ alt3).any wsHead

/-- Pattern `(19|20)\d{2}` at a position. -/
def yearAt : List Char → Bool
  | a :: b :: c :: d :: _ =>
    ((a = '1' && b = '9') || (a = '2' && b = '0')) && isDigit c && isDigit d
  | _ => false

/-- Journal-abbreviation search
`(Phys\.|Chem\.|Catal\.|Angew\.|ACS |Appl\.|Commun\.|J\.\s|Rev\.|Sci\.|Technol\.|Surf\.|Lett\.)`
(case-sensitive, line 264). -/
def searchJournal (s : List Char) : Bool :=
  ["Phys.", "Chem.", "Catal.", "Angew.", "ACS ", "Appl.", "Commun.",
   "Rev.", "Sci.", "Technol.", "Surf.", "Lett."].any
    (fun lit => containsSeq lit.data s) ||
  searchAny (fun cs =>
    match cs with
    | 'J' :: '.' :: c :: _ => pyIsSpace c
    | _ => false) s

/-- Pattern `\b\d{1,4}\s*[,;]\s*\d{1,4}([–\-]\d{1,4})?` at a boundary position: a
maximal digit run of length 1-4, optional spaces, a comma/semicolon, optional
spaces, a digit (the trailing dash group is optional and irrelevant to
matching). -/
def volRun (cs : List Char) : Bool :=
  let ds := cs.takeWhile isDigit
  (1 ≤ ds.length && ds.length ≤ 4) &&
    (match (cs.dropWhile isDigit).dropWhile pyIsSpace with
     | c :: r3 =>
       (c = ',' || c = ';') &&
         (match r3.dropWhile pyIsSpace with
          | d :: _ => isDigit d
          | [] => false)
     | [] => false)

def searchVolPage : Option Char → List Char → Bool
  | _, [] => false
  | prev, c :: cs =>
    ((match prev with
      | none => true
      | some p => !isWordChar p) && volRun (c :: cs)) ||
    searchVolPage (some c) cs

/-- Python `is_ref_like` (lines 250-269): scoring heuristic, threshold 2. -/
def is_ref_like (s0 : String) : Bool :=
  let s := pyStrip s0.data
  if s.isEmpty then false
  else
    2 ≤ (if numberedStart s then 2 else 0) +
      (if searchAny yearAt s then 1 else 0) +
      (if searchAny matchStart10 s then 2 else 0) +
      (if searchJournal s then 1 else 0) +
      (if searchVolPage none s then 1 else 0)

/-- Lines 240-244: first heading match from index `start` on. -/
def findHeadingFrom (lines : List String) (start : Nat) : Option Nat :=
  match (lines.drop start).findIdx? (fun l => titleMatch (pyStripStr l)) with
  | some i => some (start + i)
  | none => none

/-- The inner `while` of lines 296-309: collect a contiguous block of
reference-like lines (blank lines allowed inside), returning the block, its
reference-line count, and the remainder. -/
def blockCollect : List String → List String × Nat × List String
  | [] => ([], 0, [])
  | l :: ls =>
    if isBlankLine l then
      ((blockCollect ls).1.cons l, (blockCollect ls).2.1, (blockCollect ls).2.2)
    else if is_ref_like l then
      ((blockCollect ls).1.cons l, (blockCollect ls).2.1 + 1, (blockCollect ls).2.2)
    else ([], 0, l :: ls)

/-- The outer `while` of lines 289-321, fuel-indexed (fuel exceeding the
suffix length always suffices, as each iteration consumes at least one
line). -/
def blockLoop : Nat → List String → List String
  | 0, ls => ls
  | _ + 1, [] => []
  | fuel + 1, l :: ls =>
    if is_ref_like l then
      let b := (blockCollect (l :: ls)).1
      let c := (blockCollect (l :: ls)).2.1
      let r := (blockCollect (l :: ls)).2.2
      if 5 ≤ c && 3 * (max 1 b.length) ≤ 5 * c then blockLoop fuel r
      else b ++ blockLoop fuel r
    else l :: blockLoop fuel ls

/-- Lines 287-321: remove reference-style blocks in the second half. -/
def blockRemoval (lines : List String) (startScan : Nat) : List String :=
  lines.take startScan ++
    blockLoop ((lines.drop startScan).length + 1) (lines.drop startScan)

/-- The reference-removal stage of `extract_md` (lines 234-323).  The Python
float thresholds `int(n*0.5)`, `int(n*0.6)`, `int(n*0.75)` are the exact
naturals `n/2`, `n*6/10`, `n*75/100` at any realistic document size, and the
float ratio test `ref_count/max(1,len(block)) >= 0.6` is the exact rational
comparison used in `blockLoop`. -/
def dropRefs (lines : List String) : List String :=
  let n := lines.length
  match findHeadingFrom lines (n / 2) with
  | some cut => lines.take cut
  | none =>
    let startScan := n * 6 / 10
    let flags := (lines.drop startScan).map is_ref_like
    match flags.findIdx? (fun b => b) with
    | some firstIdx =>
      if n * 75 / 100 ≤ startScan + firstIdx &&
          5 ≤ ((flags.drop firstIdx).take 10).countP (fun b => b) then
        lines.take (startScan + firstIdx)
      else blockRemoval lines (n * 5 / 10)
    | none => blockRemoval lines (n * 5 / 10)

/-- Python `extract_md`'s in-memory line pipeline (lines 84-323): NUL removal, image
substitution (`tm` is the table map), the trailing-whitespace/newline pass,
blank collapsing, figure-caption removal, the math pass (inner transformation
`mathF`), and reference removal.  All environment-variable switches are at
their defaults (everything enabled). -/
def extract_md_lines (tm : String → Option String) (mathF : List Char → List Char)
    (mdLines : List String) : List String :=
  let l0 := mdLines.map (fun s => String.mk (s.data.filter (fun c => c != '\x00')))
  let l1 := l0.map (fun s => String.mk (imageSub (tableRepl tm) s.data))
  let l2 := l1.map rstripNl
  let l3 := collapseStage l2
  let l4 := dropFigCaps false l3
  let l5 := l4.map (fun s => String.mk (applyMath mathF s.data))
  dropRefs l5

/-- Python `md_to_text` (lines 338-372): the per-line Markdown-marker stripping of
lines 341-356 (a chain of regex replacements that is not at issue in the
claims) is the parameter `lineF`; each transformed line is right-stripped and
given a newline, then blank lines are re-collapsed exactly as in
`collapseStage`. -/
def md_to_text (lineF : String → String) (lines : List String) : List String :=
  let out := lines.map (fun ln =>
    let s := pyRstripWs (lineF ln)
    s ++ (if endsWithNl s then "" else "\n"))
  fixLastNl (dropTrailingBlanks (collapseBlanks true out))

/-- The invariant of claim C8: no two consecutive blank lines. -/
def noDoubleBlank : List String → Bool
  | [] => true
  | [_] => true
  | a :: b :: rest => !(isBlankLine a && isBlankLine b) && noDoubleBlank (b :: rest)

/-- The full invariant of claim C8: no double blanks, no leading blank, no
trailing blank, and a final newline on non-empty output. -/
def cleanShape (ls : List String) : Bool :=
  noDoubleBlank ls &&
  (match ls.head? with
   | none => true
   | some h => !isBlankLine h) &&
  (match ls.getLast? with
   | none => true
   | some l => !isBlankLine l && endsWithNl l)

/-! ### Invariant lemmas for the blank-collapsing stages -/

theorem andE {a b : Bool} (h : (a && b) = true) : a = true ∧ b = true := by
  simp at h
  exact h

theorem andI {a b : Bool} (h1 : a = true) (h2 : b = true) : (a && b) = true := by
  simp [h1, h2]

theorem dropLeading_isEmpty (p : Char → Bool) (cs : List Char) :
    (dropLeading p cs).isEmpty = cs.all p := by
  induction cs with
  | nil => rfl
  | cons c cs1 ih =>
    unfold dropLeading
    by_cases hc : p c = true
    · rw [if_pos hc]
      simp [hc, ih]
    · rw [if_neg hc]
      simp only [Bool.not_eq_true] at hc
      simp [hc]

theorem dropLeading_all (p : Char → Bool) (cs : List Char) :
    (dropLeading p cs).all p = cs.all p := by
  induction cs with
  | nil => rfl
  | cons c cs1 ih =>
    unfold dropLeading
    by_cases hc : p c = true
    · rw [if_pos hc]
      simp [hc, ih]
    · rw [if_neg hc]

theorem pyStripChars_isEmpty (p : Char → Bool) (cs : List Char) :
    (pyStripChars p cs).isEmpty = cs.all p := by
  unfold pyStripChars
  rw [show ((dropLeading p ((dropLeading p cs).reverse)).reverse).isEmpty
      = (dropLeading p ((dropLeading p cs).reverse)).isEmpty from by
    rcases h : dropLeading p ((dropLeading p cs).reverse) with _ | ⟨c, r⟩ <;> simp]
  rw [dropLeading_isEmpty]
  rw [List.all_reverse]
  rw [dropLeading_all]

/-- Blankness is "all characters whitespace". -/
theorem isBlankLine_eq_all (s : String) : isBlankLine s = s.data.all pyIsSpace := by
  unfold isBlankLine pyStrip
  exact pyStripChars_isEmpty pyIsSpace s.data

/-- The head surviving `dropWhile` fails the predicate. -/
theorem head_dropWhile_false (p : String → Bool) (l : List String) (h : String)
    (hh : (l.dropWhile p).head? = some h) : p h = false := by
  induction l with
  | nil => simp [List.dropWhile] at hh
  | cons a l1 ih =>
    rw [List.dropWhile_cons] at hh
    by_cases hp : p a = true
    · rw [if_pos hp] at hh
      exact ih hh
    · rw [if_neg hp] at hh
      simp only [List.head?_cons, Option.some.injEq] at hh
      subst hh
      simpa using hp

/-- Lemma: `noDoubleBlank` through a cons, phrased with `head?`. -/
theorem noDoubleBlank_cons (a : String) (t : List String) :
    noDoubleBlank (a :: t) =
      ((match t.head? with
        | some h => !(isBlankLine a && isBlankLine h)
        | none => true) && noDoubleBlank t) := by
  cases t with
  | nil => simp [noDoubleBlank]
  | cons b rest => simp [noDoubleBlank]

/-- Lemma: `collapseBlanks` produces no consecutive blanks, and its head can only be
blank when the incoming `prev_blank` is false. -/
theorem collapseBlanks_spec (ls : List String) : ∀ (b : Bool),
    noDoubleBlank (collapseBlanks b ls) = true ∧
    (∀ h, (collapseBlanks b ls).head? = some h → isBlankLine h = true → b = false) := by
  induction ls with
  | nil => intro b; simp [collapseBlanks, noDoubleBlank]
  | cons l ls1 ih =>
    intro b
    unfold collapseBlanks
    by_cases hb : (isBlankLine l && b) = true
    · rw [if_pos hb]
      refine ⟨(ih b).1, ?_⟩
      intro h hh hblank
      exact (ih b).2 h hh hblank
    · rw [if_neg hb]
      have hrest := ih (isBlankLine l)
      constructor
      · rw [noDoubleBlank_cons]
        rcases hh : (collapseBlanks (isBlankLine l) ls1).head? with _ | h
        · simpa using hrest.1
        · have hda : isBlankLine h = true → isBlankLine l = false := hrest.2 h hh
          refine andI ?_ hrest.1
          by_cases hbh : isBlankLine h = true
          · simp [hda hbh]
          · simp only [Bool.not_eq_true] at hbh
            simp [hbh]
      · intro h hh hblank
        simp only [List.head?_cons, Option.some.injEq] at hh
        subst hh
        by_cases hbt : b = true
        · exact absurd hb (by simp [hblank, hbt])
        · simpa using hbt

/-- Lemma: `noDoubleBlank` holds for any prefix. -/
theorem noDoubleBlank_append_left (l t : List String)
    (h : noDoubleBlank (l ++ t) = true) : noDoubleBlank l = true := by
  induction l with
  | nil => rfl
  | cons a l1 ih =>
    rw [List.cons_append, noDoubleBlank_cons] at h
    rcases andE h with ⟨hhead, htail⟩
    rw [noDoubleBlank_cons]
    refine andI ?_ (ih htail)
    rcases hl : l1.head? with _ | x
    · simp
    · have hx : (l1 ++ t).head? = some x := by
        cases l1 with
        | nil => simp at hl
        | cons y ys => simpa using hl
      rw [hx] at hhead
      exact hhead

/-- Replacing the final element by one of equal blankness preserves
`noDoubleBlank`. -/
theorem noDoubleBlank_replace_last (l : List String) (a b : String)
    (hab : isBlankLine a = isBlankLine b)
    (h : noDoubleBlank (l ++ [a]) = true) : noDoubleBlank (l ++ [b]) = true := by
  induction l with
  | nil => simp [noDoubleBlank]
  | cons x l1 ih =>
    rw [List.cons_append, noDoubleBlank_cons] at h ⊢
    rcases andE h with ⟨hhead, htail⟩
    refine andI ?_ (ih htail)
    cases l1 with
    | nil =>
      simp only [List.nil_append, List.head?_cons] at hhead ⊢
      rw [← hab]
      exact hhead
    | cons y ys =>
      simpa using hhead

/-- Lemma: `isBlankLine` ignores a trailing newline. -/
theorem isBlank_append_nl (s : String) : isBlankLine (s ++ "\n") = isBlankLine s := by
  rw [isBlankLine_eq_all, isBlankLine_eq_all, String.data_append]
  rw [show ("\n" : String).data = ['\n'] from rfl]
  rw [List.all_append]
  simp [pyIsSpace]

/-- Appending a newline makes `endsWithNl` true. -/
theorem endsWithNl_append (s : String) : endsWithNl (s ++ "\n") = true := by
  unfold endsWithNl
  rw [String.data_append]
  rw [show ("\n" : String).data = ['\n'] from rfl]
  rw [List.getLast?_concat]
  simp

/-- Sufficient conditions for `cleanShape`. -/
theorem cleanShape_of (ls : List String)
    (h1 : noDoubleBlank ls = true)
    (h2 : ∀ h, ls.head? = some h → isBlankLine h = false)
    (h3 : ∀ l, ls.getLast? = some l → isBlankLine l = false ∧ endsWithNl l = true) :
    cleanShape ls = true := by
  unfold cleanShape
  refine andI (andI h1 ?_) ?_
  · rcases hh : ls.head? with _ | h
    · rfl
    · simp [h2 h hh]
  · rcases hl : ls.getLast? with _ | l
    · rfl
    · rcases h3 l hl with ⟨ha, hb⟩
      simp [ha, hb]

/-- The head of a list survives appending on the right. -/
theorem head_append_of_head (l t : List String) (h : String)
    (hh : l.head? = some h) : (l ++ t).head? = some h := by
  cases l with
  | nil => simp at hh
  | cons x xs => simpa using hh

/-- Popping trailing blanks keeps the no-double-blank and head invariants and
makes the final line non-blank. -/
theorem dropTrailingBlanks_props (c : List String)
    (hnd : noDoubleBlank c = true)
    (hhead : ∀ h, c.head? = some h → isBlankLine h = false) :
    noDoubleBlank (dropTrailingBlanks c) = true ∧
    (∀ h, (dropTrailingBlanks c).head? = some h → isBlankLine h = false) ∧
    (∀ l, (dropTrailingBlanks c).getLast? = some l → isBlankLine l = false) := by
  have hpre : ∃ t, c = (c.reverse.dropWhile isBlankLine).reverse ++ t := by
    obtain ⟨t, ht⟩ := List.dropWhile_suffix (l := c.reverse) (p := isBlankLine)
    refine ⟨t.reverse, ?_⟩
    calc c = c.reverse.reverse := by rw [List.reverse_reverse]
    _ = (t ++ c.reverse.dropWhile isBlankLine).reverse := by rw [ht]
    _ = (c.reverse.dropWhile isBlankLine).reverse ++ t.reverse := by
        rw [List.reverse_append]
  refine ⟨?_, ?_, ?_⟩
  · obtain ⟨t, ht⟩ := hpre
    exact noDoubleBlank_append_left _ t (ht ▸ hnd)
  · intro h hh
    obtain ⟨t, ht⟩ := hpre
    apply hhead
    rw [ht]
    apply head_append_of_head
    exact hh
  · intro l hl
    unfold dropTrailingBlanks at hl
    rw [List.getLast?_reverse] at hl
    exact head_dropWhile_false isBlankLine c.reverse l hl

/-- Re-appending the final newline yields a clean shape from the invariants of
the previous two stages. -/
theorem fixLastNl_clean (d : List String)
    (hnd : noDoubleBlank d = true)
    (hhead : ∀ h, d.head? = some h → isBlankLine h = false)
    (hlast : ∀ l, d.getLast? = some l → isBlankLine l = false) :
    cleanShape (fixLastNl d) = true := by
  unfold fixLastNl
  rcases hl : d.getLast? with _ | lst
  · rfl
  · have hlb : isBlankLine lst = false := hlast lst hl
    show cleanShape (if endsWithNl lst = true then d else d.dropLast ++ [lst ++ "\n"]) = true
    by_cases he : endsWithNl lst = true
    · rw [if_pos he]
      refine cleanShape_of d hnd hhead ?_
      intro l hll
      rw [hl] at hll
      injection hll with hll
      subst hll
      exact ⟨hlb, he⟩
    · rw [if_neg he]
      obtain (hnil | ⟨l2, a, hsplit⟩) := List.eq_nil_or_concat d
      · rw [hnil] at hl
        simp at hl
      · rw [List.concat_eq_append] at hsplit
        subst hsplit
        have ha : lst = a := by
          rw [List.getLast?_concat] at hl
          injection hl with hl
          exact hl.symm
        subst ha
        rw [List.dropLast_concat]
        apply cleanShape_of
        · exact noDoubleBlank_replace_last l2 lst (lst ++ "\n")
            (isBlank_append_nl lst).symm hnd
        · intro h hh
          cases l2 with
          | nil =>
            simp only [List.nil_append, List.head?_cons, Option.some.injEq] at hh
            subst hh
            rw [isBlank_append_nl]
            exact hlb
          | cons x xs =>
            simp only [List.cons_append, List.head?_cons, Option.some.injEq] at hh
            subst hh
            exact hhead x (by simp)
        · intro l hll
          rw [List.getLast?_concat] at hll
          injection hll with hll
          subst hll
          exact ⟨by rw [isBlank_append_nl]; exact hlb, endsWithNl_append lst⟩

/-- The blank-collapsing stage always produces a clean shape. -/
theorem collapseStage_clean (ls : List String) : cleanShape (collapseStage ls) = true := by
  unfold collapseStage
  have hc := collapseBlanks_spec ls true
  have hhead : ∀ h, (collapseBlanks true ls).head? = some h → isBlankLine h = false := by
    intro h hh
    by_cases hb : isBlankLine h = true
    · exact absurd (hc.2 h hh hb) (by simp)
    · simpa using hb
  rcases dropTrailingBlanks_props _ hc.1 hhead with ⟨h1, h2, h3⟩
  exact fixLastNl_clean _ h1 h2 h3

/-- C8 counterexample: a document whose second half starts with a reference
heading is cut by `drop_references_section`, leaving the blank separator line
as the last element of the final `.md` line list; that line is blank and does
not end in a newline, so the claimed invariant fails on the `.md` output. -/
theorem c8_counterexample :
    extract_md_lines (fun _ => none) (fun m => m)
      ["Intro\n", "\n", "References\n", "[1] X\n"] = ["Intro", ""] ∧
    isBlankLine "" = true ∧
    endsWithNl "" = false ∧
    cleanShape ["Intro", ""] = false := by
  refine ⟨by decide, by decide, by decide, by decide⟩

/-- C8 (amended): the blank-line invariant (no two consecutive blank lines, no
leading or trailing blank line, final line newline-terminated) holds for the
output of `md_to_text` (the `.txt` artefact) and for the blank-collapsing
stage inside `extract_md`, but later stages of `extract_md` (figure-caption
and reference-section removal) can break it for the `.md` artefact. -/
theorem c8_blank_invariant :
    (∀ (lineF : String → String) (lines : List String),
        cleanShape (md_to_text lineF lines) = true) ∧
    (∀ ls : List String, cleanShape (collapseStage ls) = true) :=
  ⟨fun lineF lines => collapseStage_clean
      (lines.map (fun ln =>
        let s := pyRstripWs (lineF ln)
        s ++ (if endsWithNl s then "" else "\n"))),
   fun ls => collapseStage_clean ls⟩

/-- C4: the math-normalization pass (the lazy single-line dollar-span
substitution of `normalize_math`, with the inner rewriting chain of
`normalize_math_text` abstracted as `f`) is a frame transformation: every
line decomposes into gaps and spans, rebuilding the decomposition with the
identity recovers the line exactly, and the pass equals rebuilding with `f`
applied to the span interiors only — so every character outside a
dollar span is emitted unchanged. -/
theorem c4_math_frame (f : List Char → List Char) (cs : List Char) :
    rebuildMath (fun m => m) (mathDecomp cs) = cs ∧
    applyMath f cs = rebuildMath f (mathDecomp cs) :=
  mathDecompF_spec f cs.length cs

/-- Helper: `imageSubF` on the empty list is the empty list at any fuel. -/
theorem imageSubF_nil (repl : String → String) (n : Nat) : imageSubF repl n [] = [] := by
  cases n <;> rfl

/-- Helper: one step of `imageSubF` on a successful match. -/
theorem imageSubF_match (repl : String → String) (fuel : Nat) (c : Char) (cs : List Char)
    (alt url : String) (rest : List Char)
    (hm : matchImageAt (c :: cs) = some (alt, url, rest)) :
    imageSubF repl (fuel + 1) (c :: cs) = (repl url).data ++ imageSubF repl fuel rest := by
  conv_lhs => unfold imageSubF
  rw [hm]

/-- The image pass on exactly one well-formed image replaces it through
`repl`. -/
theorem imageSub_single (repl : String → String) (alt url : String)
    (halt : ∀ c ∈ alt.data, c ≠ ']') (hurl1 : url.data ≠ [])
    (hurl2 : ∀ c ∈ url.data, c ≠ ')') :
    imageSub repl (imgText alt url) = (repl url).data := by
  have hm := matchImageAt_imgText alt url halt hurl1 hurl2
  unfold imageSub
  rw [show (imgText alt url).length = (alt.data.length + url.data.length + 4) + 1 from by
    simp only [imgText, List.length_cons, List.length_append, List.length_nil]
    omega]
  show imageSubF repl ((alt.data.length + url.data.length + 4) + 1)
      ('!' :: '[' :: (alt.data ++ ']' :: '(' :: (url.data ++ [')']))) = (repl url).data
  rw [imageSubF_match repl (alt.data.length + url.data.length + 4) '!'
    ('[' :: (alt.data ++ ']' :: '(' :: (url.data ++ [')']))) alt url [] hm]
  rw [imageSubF_nil]
  simp

/-- Helper: `tableRepl` when the basename is a key with a non-empty value. -/
theorem tableRepl_basename (tm : String → Option String) (url h : String)
    (hb : tm (basename url) = some h) (hne : h ≠ "") : tableRepl tm url = h := by
  unfold tableRepl
  rw [hb]
  rw [if_pos (by simp)]
  show (match (if h = "" then tm url else some h) with
        | some h2 => h2
        | none => "") = h
  rw [if_neg hne]

/-- Helper: `tableRepl` when only the full path is a key. -/
theorem tableRepl_fullpath (tm : String → Option String) (url h : String)
    (hb : tm (basename url) = none) (hu : tm url = some h) : tableRepl tm url = h := by
  unfold tableRepl
  rw [hb, hu]
  rw [if_pos (by simp)]
  rfl

/-- Helper: `tableRepl` deletes the image when neither key is recorded. -/
theorem tableRepl_none (tm : String → Option String) (url : String)
    (hb : tm (basename url) = none) (hu : tm url = none) : tableRepl tm url = "" := by
  unfold tableRepl
  rw [hb, hu]
  rfl

/-- C3 counterexample: deleting an unrecorded image can splice the
surrounding text into new Markdown image syntax, so image syntax of the form
exclamation-bracket-parenthesis can survive into the cleaned output: on the
single line built from two bangs, a bracket pair and a parenthesised pair,
the pass deletes the matched image and the remaining characters form a fresh
image match in the output. -/
theorem c3_counterexample :
    extract_md_lines (fun _ => none) (fun m => m) ["!![a](b)[c](d)\n"]
      = ["![c](d)\n"] ∧
    containsImagePat ("![c](d)\n").data = true := by
  refine ⟨by decide, by decide⟩

/-- C3 (amended): every Markdown image match in a line is replaced through
the table map: the line decomposes into gaps and image matches (rebuilding
with the original image texts recovers the line), the pass equals rebuilding
with each match replaced by `tableRepl`; a lone well-formed image becomes
exactly the replacement for its URL; the replacement is the recorded HTML
under the basename (when non-empty) or the full path, and the empty string —
deletion — when neither is recorded; every recorded HTML is a `tableHtml`
value wrapped in table-start/table-end comments.  However, deletions may
splice surrounding text into new image syntax, so the literal claim that no
image syntax survives is false. -/
theorem c3_image_substitution :
    (∀ (repl : String → String) (cs : List Char),
        rebuildOrigImg (imgDecomp cs) = cs ∧
        imageSub repl cs = rebuildSubImg repl (imgDecomp cs)) ∧
    (∀ (tm : String → Option String) (alt url : String),
        (∀ c ∈ alt.data, c ≠ ']') → url.data ≠ [] → (∀ c ∈ url.data, c ≠ ')') →
        imageSub (tableRepl tm) (imgText alt url) = (tableRepl tm url).data) ∧
    (∀ (tm : String → Option String) (url h : String),
        (tm (basename url) = some h → h ≠ "" → tableRepl tm url = h) ∧
        (tm (basename url) = none → tm url = some h → tableRepl tm url = h)) ∧
    (∀ (tm : String → Option String) (url : String),
        tm (basename url) = none → tm url = none → tableRepl tm url = "") ∧
    (∀ (items : List ContentItem) (k h : String),
        buildTableMap items k = some h →
        ∃ it, h = tableHtml it ∧
          prefixOfAux ("\n<!-- table:start ").data h.data = true ∧
          containsSeq ("<!-- table:end -->").data h.data = true) := by
  refine ⟨?_, ?_, ?_, ?_, ?_⟩
  · intro repl cs
    exact imgDecompF_spec repl cs.length cs
  · intro tm alt url halt hurl1 hurl2
    exact imageSub_single (tableRepl tm) alt url halt hurl1 hurl2
  · intro tm url h
    exact ⟨tableRepl_basename tm url h, tableRepl_fullpath tm url h⟩
  · intro tm url hb hu
    exact tableRepl_none tm url hb hu
  · intro items k h hk
    obtain ⟨it, hit⟩ := buildTableMap_shape items k h hk
    subst hit
    exact ⟨it, rfl, (tableHtml_wrapped it).1, (tableHtml_wrapped it).2⟩

/-- C3 witness: the amended theorem applied to a lone image with an empty
table map deletes the image. -/
theorem c3_image_substitution_w :
    imageSub (tableRepl (fun _ => none)) (imgText "a" "b")
      = (tableRepl (fun _ => none) "b").data :=
  c3_image_substitution.2.1 (fun _ => none) "a" "b"
    (by decide) (by decide) (by decide)

/-- Structural unfolding of `dropRefs`. -/
theorem dropRefs_eq (lines : List String) :
    dropRefs lines =
      match findHeadingFrom lines (lines.length / 2) with
      | some cut => lines.take cut
      | none =>
        match ((lines.drop (lines.length * 6 / 10)).map is_ref_like).findIdx?
            (fun b => b) with
        | some firstIdx =>
          if lines.length * 75 / 100 ≤ lines.length * 6 / 10 + firstIdx &&
              5 ≤ ((((lines.drop (lines.length * 6 / 10)).map is_ref_like).drop
                firstIdx).take 10).countP (fun b => b) then
            lines.take (lines.length * 6 / 10 + firstIdx)
          else blockRemoval lines (lines.length * 5 / 10)
        | none => blockRemoval lines (lines.length * 5 / 10) := rfl

/-- The heading search only reports indices at or past its start index. -/
theorem findHeadingFrom_ge (lines : List String) (s i : Nat)
    (h : findHeadingFrom lines s = some i) : s ≤ i := by
  unfold findHeadingFrom at h
  rcases hm : (lines.drop s).findIdx? (fun l => titleMatch (pyStripStr l)) with _ | idx
  · rw [hm] at h
    exact absurd h (by simp)
  · rw [hm] at h
    have h2 : some (s + idx) = some i := h
    injection h2 with h2
    omega

/-- Taking a prefix of at least half the list keeps the first half. -/
theorem take_half_of_take (lines : List String) (k : Nat)
    (hk : lines.length / 2 ≤ k) :
    (lines.take k).take (lines.length / 2) = lines.take (lines.length / 2) := by
  rw [List.take_take]
  congr 1
  omega

/-- Block removal starting at index `s` keeps the first `k` lines whenever
`k ≤ s`. -/
theorem blockRemoval_take (lines : List String) (s k : Nat)
    (h1 : k ≤ s) (h2 : k ≤ lines.length) :
    (blockRemoval lines s).take k = lines.take k := by
  unfold blockRemoval
  rw [List.take_append_eq_append_take, List.length_take]
  have h3 : k - min s lines.length = 0 := by omega
  rw [h3, List.take_zero, List.append_nil, List.take_take]
  congr 1
  omega

/-- One outer iteration on a reference-like first line either drops or keeps
the collected block according to the count/ratio test. -/
theorem blockLoop_ref (fuel : Nat) (l : String) (ls : List String)
    (hrl : is_ref_like l = true) :
    blockLoop (fuel + 1) (l :: ls) =
      if 5 ≤ (blockCollect (l :: ls)).2.1 &&
          3 * max 1 (blockCollect (l :: ls)).1.length ≤
            5 * (blockCollect (l :: ls)).2.1 then
        blockLoop fuel (blockCollect (l :: ls)).2.2
      else (blockCollect (l :: ls)).1 ++ blockLoop fuel (blockCollect (l :: ls)).2.2 := by
  conv_lhs => unfold blockLoop
  rw [if_pos hrl]

/-- A helper with the max already abstracted as a positive natural. -/
theorem sixtyPercentIffAux (c m : Nat) (hm1 : 1 ≤ m) :
    ((3 : ℚ) / 5 ≤ (c : ℚ) / (m : ℚ)) ↔ 3 * m ≤ 5 * c := by
  have hm : (0 : ℚ) < (m : ℚ) := by exact_mod_cast hm1
  rw [div_le_div_iff₀ (by norm_num) hm]
  constructor
  · intro h
    have h2 : ((3 * m : Nat) : ℚ) ≤ ((5 * c : Nat) : ℚ) := by
      push_cast
      linarith
    exact_mod_cast h2
  · intro h
    have h2 : ((3 * m : Nat) : ℚ) ≤ ((5 * c : Nat) : ℚ) := by exact_mod_cast h
    push_cast at h2
    linarith

/-- The integer form of the sixty-percent test is the exact rational one. -/
theorem sixtyPercentIff (c L : Nat) :
    ((3 : ℚ) / 5 ≤ (c : ℚ) / ((max 1 L : Nat) : ℚ)) ↔ 3 * max 1 L ≤ 5 * c :=
  sixtyPercentIffAux c (max 1 L) (le_max_left 1 L)

/-- C2: reference-list removal never touches the first half of the document:
the heading search starts at the midpoint and a found heading cuts there and
beyond; the morphological fallback truncates at the first reference-like line
only when that line lies in the last quarter and at least five of the ten
flags from it are set, and otherwise (and when no flag is set) only block
removal runs, scanning from the midpoint and dropping a contiguous block
exactly when it has at least five reference-like lines making up at least
sixty percent (a ratio stated exactly in rationals) of the block. -/
theorem c2_ref_detection (lines : List String) :
    (dropRefs lines).take (lines.length / 2) = lines.take (lines.length / 2) ∧
    (∀ i, findHeadingFrom lines (lines.length / 2) = some i →
        lines.length / 2 ≤ i ∧ dropRefs lines = lines.take i) ∧
    (∀ (fuel : Nat) (l : String) (ls : List String), is_ref_like l = true →
        blockLoop (fuel + 1) (l :: ls) =
          if 5 ≤ (blockCollect (l :: ls)).2.1 ∧
              (3 : ℚ) / 5 ≤ ((blockCollect (l :: ls)).2.1 : ℚ) /
                ((max 1 (blockCollect (l :: ls)).1.length : Nat) : ℚ) then
            blockLoop fuel (blockCollect (l :: ls)).2.2
          else (blockCollect (l :: ls)).1 ++
            blockLoop fuel (blockCollect (l :: ls)).2.2) ∧
    (findHeadingFrom lines (lines.length / 2) = none →
      ∀ j, ((lines.drop (lines.length * 6 / 10)).map is_ref_like).findIdx?
          (fun b => b) = some j →
        ((lines.length * 3 / 4 ≤ lines.length * 6 / 10 + j ∧
          5 ≤ ((((lines.drop (lines.length * 6 / 10)).map is_ref_like).drop
            j).take 10).countP (fun b => b)) →
            dropRefs lines = lines.take (lines.length * 6 / 10 + j)) ∧
        (¬(lines.length * 3 / 4 ≤ lines.length * 6 / 10 + j ∧
            5 ≤ ((((lines.drop (lines.length * 6 / 10)).map is_ref_like).drop
              j).take 10).countP (fun b => b)) →
            dropRefs lines = blockRemoval lines (lines.length / 2))) ∧
    (findHeadingFrom lines (lines.length / 2) = none →
      ((lines.drop (lines.length * 6 / 10)).map is_ref_like).findIdx?
        (fun b => b) = none →
      dropRefs lines = blockRemoval lines (lines.length / 2)) := by
  refine ⟨?_, ?_, ?_, ?_, ?_⟩
  · rw [dropRefs_eq]
    split
    next cut heq =>
      exact take_half_of_take lines cut (findHeadingFrom_ge lines _ cut heq)
    next heq =>
      split
      next j hj =>
        split
        next hcond => exact take_half_of_take lines _ (by omega)
        next hcond => exact blockRemoval_take lines _ _ (by omega) (by omega)
      next hj => exact blockRemoval_take lines _ _ (by omega) (by omega)
  · intro i hf
    refine ⟨findHeadingFrom_ge lines _ i hf, ?_⟩
    rw [dropRefs_eq, hf]
  · intro fuel l ls hrl
    rw [blockLoop_ref fuel l ls hrl]
    by_cases h : 5 ≤ (blockCollect (l :: ls)).2.1 ∧
        (3 : ℚ) / 5 ≤ ((blockCollect (l :: ls)).2.1 : ℚ) /
          ((max 1 (blockCollect (l :: ls)).1.length : Nat) : ℚ)
    · rw [if_pos (show _ = true from by
        simp only [Bool.and_eq_true, decide_eq_true_eq]
        exact ⟨h.1, (sixtyPercentIff _ _).mp h.2⟩), if_pos h]
    · rw [if_neg (show ¬_ = true from by
        simp only [Bool.and_eq_true, decide_eq_true_eq]
        intro hc
        exact h ⟨hc.1, (sixtyPercentIff _ _).mpr hc.2⟩), if_neg h]
  · intro hf j hj
    constructor
    · intro hc
      rw [dropRefs_eq, hf, hj]
      show (if (lines.length * 75 / 100 ≤ lines.length * 6 / 10 + j &&
          5 ≤ ((((lines.drop (lines.length * 6 / 10)).map is_ref_like).drop
            j).take 10).countP (fun b => b)) = true then
            lines.take (lines.length * 6 / 10 + j)
          else blockRemoval lines (lines.length * 5 / 10))
        = lines.take (lines.length * 6 / 10 + j)
      rw [if_pos (show _ = true from by
        simp only [Bool.and_eq_true, decide_eq_true_eq]
        refine ⟨by omega, hc.2⟩)]
    · intro hc
      rw [dropRefs_eq, hf, hj]
      show (if (lines.length * 75 / 100 ≤ lines.length * 6 / 10 + j &&
          5 ≤ ((((lines.drop (lines.length * 6 / 10)).map is_ref_like).drop
            j).take 10).countP (fun b => b)) = true then
            lines.take (lines.length * 6 / 10 + j)
          else blockRemoval lines (lines.length * 5 / 10))
        = blockRemoval lines (lines.length / 2)
      rw [if_neg (show ¬_ = true from by
        simp only [Bool.and_eq_true, decide_eq_true_eq]
        intro hb
        exact hc ⟨by omega, hb.2⟩)]
      rw [show lines.length * 5 / 10 = lines.length / 2 from by omega]
  · intro hf hj
    rw [dropRefs_eq, hf, hj]
    show blockRemoval lines (lines.length * 5 / 10) = blockRemoval lines (lines.length / 2)
    rw [show lines.length * 5 / 10 = lines.length / 2 from by omega]

/-- C2 witness: a two-line document whose second line is a reference heading
is cut at the heading. -/
theorem c2_ref_detection_w : dropRefs ["A", "References"] = ["A"] := by
  have h := (c2_ref_detection ["A", "References"]).2.1 1 (by decide)
  rw [h.2]
  rfl
